import Mathlib

/-!
# tsdb-tester: the LinDB data generator (`pkg/data/generate/data_generator.go`)

A shallow embedding of `mapping`, `DataGenerator.init`, `DataGenerator.Generate`,
`DataGenerator.runSimulator`, `DataGenerator.writePoint` and `DataGenerator.flushBuffer`, and
theorems about them.

Conventions of the embedding:

* The collaborators the Go code calls but does not define are parameters, collected in `Env`:
  the row encoder (`series.RowBuilder.AddTag` and `Build`), the gzip writer and the resty
  `Put`. The simulator (`common.Simulator`) is a parameter of its own, `Simulator`; the
  package `usecases`, the package-level tables and `strconv.ParseFloat` are parameters too.
* A `float64` is carried as its 64-bit IEEE-754 pattern; no arithmetic is done on it.
* A Go `panic` is an explicit outcome (`Res.panic`, `RunResult.panicked`).
* Every observable step (simulator calls, `writePoint` calls, compressor operations, PUT
  requests) is appended to a chronological trace carried next to the generator.
* The `for !sim.Finished()` loop takes fuel; running out of it is the outcome
  `RunResult.outOfFuel`, distinct from returning.
-/

namespace TsdbTester

/-! ## Data model -/

/-- A byte string (`[]byte`), one natural number below 256 per byte. -/
abbrev Bytes := List Nat

/-- A `float64`, identified with its IEEE-754 bit pattern. -/
structure F64 where
  bits : Nat
deriving DecidableEq, Repr

/-- The zero value of `float64` (`+0.0`, all bits clear): what a Go map lookup yields for an
absent key. -/
def F64.zero : F64 := ⟨0⟩

/-- The dynamic type of one element of `Point.tagValues` (`[]interface{}`): a string, the nil
interface, or a value of some other scalar type (here tagged with an integer payload). -/
inductive TagValue where
  | str (s : String)
  | nil
  | other (n : Int)
deriving DecidableEq, Repr

/-- The part of `data.Point` that `writePoint` reads: `MeasurementName()`,
`Timestamp().UnixMilli()`, `TagKeys()`, `TagValues()` and `FieldKeys()`. The point's own field
values are never read by this generator. -/
structure Point where
  measurementName : String
  timestampMilli : Int
  tagKeys : List String
  tagValues : List TagValue
  fieldKeys : List String
deriving DecidableEq, Repr

/-- The constants of `flatMetricsV1.SimpleFieldType`. -/
inductive SimpleFieldType where
  | unSpecified
  | last
  | deltaSum
  | min
  | max
  | first
deriving DecidableEq, Repr

/-- One simple field handed to the row builder by `AddSimpleField`. -/
structure SimpleField where
  name : String
  kind : SimpleFieldType
  value : F64
deriving DecidableEq, Repr

/-- The state of `series.RowBuilder` as far as the generator drives it: the metric name and
timestamp last set, and the tags and simple fields added since the last `Reset`, in order. -/
structure RowBuilder where
  metricName : String
  timestamp : Int
  tags : List (String × String)
  fields : List SimpleField
deriving DecidableEq, Repr

/-- The builder after `series.CreateRowBuilder()` or `Reset()`. -/
def RowBuilder.empty : RowBuilder := ⟨"", 0, [], []⟩

/-- Embeds `RowBuilder.AddMetricName`. -/
def RowBuilder.AddMetricName (b : RowBuilder) (name : String) : RowBuilder :=
  { b with metricName := name }

/-- Embeds `RowBuilder.AddTimestamp`. -/
def RowBuilder.AddTimestamp (b : RowBuilder) (ts : Int) : RowBuilder :=
  { b with timestamp := ts }

/-- Embeds the effect of an accepted `RowBuilder.AddTag` on the builder. -/
def RowBuilder.AddTag (b : RowBuilder) (key value : String) : RowBuilder :=
  { b with tags := b.tags ++ [(key, value)] }

/-- Embeds `RowBuilder.AddSimpleField`; its returned error is dropped by the caller. -/
def RowBuilder.AddSimpleField (b : RowBuilder) (name : String) (kind : SimpleFieldType)
    (value : F64) : RowBuilder :=
  { b with fields := b.fields ++ [⟨name, kind, value⟩] }

/-- What `resty`'s `Put` hands back: the response (of which only the status code is kept) and the
error, which is non-nil for a transport-level failure only. -/
structure PutResult where
  status : Nat
  err : Option String
deriving DecidableEq, Repr

/-- The collaborators of the generator that live outside the repository. `put` is given the number
of earlier requests, so that successive pushes may be answered differently. -/
structure Env where
  addTagErr : String → String → Option String
  build : RowBuilder → Except String Bytes
  gzip : Bytes → Bytes
  put : Nat → Bytes → PutResult

/-- One observable step of a run. `put plain body` is a PUT whose body `body` is the compressed
form of `plain`; `iter c` marks the head of a loop iteration of `runSimulator` with cursor `c`. -/
inductive Event where
  | iter (cursor : Nat)
  | finished (result : Bool)
  | next (written : Bool)
  | writePoint (p : Point)
  | gzipReset
  | gzipWrite (data : Bytes)
  | gzipClose
  | put (plain : Bytes) (body : Bytes)
deriving DecidableEq, Repr

/-- The fields of `DataGenerator` that the pipeline reads or writes. A nil `fieldMapping` and an
empty one are both the empty association list. -/
structure DataGenerator where
  fieldMapping : List (String × F64)
  builder : RowBuilder
  buf : Bytes
  gzipBuf : Bytes
  batchedSize : Nat
deriving DecidableEq, Repr

/-- A generator together with the trace of what has happened so far. -/
structure St where
  g : DataGenerator
  trace : List Event
deriving DecidableEq, Repr

/-- Appends one event to the trace. -/
def St.log (s : St) (e : Event) : St :=
  { s with trace := s.trace ++ [e] }

/-- The outcome of a call that may panic: the state it leaves, and the panic value if any. -/
inductive Res where
  | ok (s : St)
  | panic (msg : String) (s : St)
deriving DecidableEq, Repr

/-- The state a call leaves behind. -/
def Res.st : Res → St
  | .ok s => s
  | .panic _ s => s

/-- Whether the call panicked. -/
def Res.isPanic : Res → Bool
  | .ok _ => false
  | .panic _ _ => true

/-- The fields of `common.DataGeneratorConfig` (with its embedded `BaseConfig`) that the
generator reads or writes, each defaulting to its Go zero value. `runSimulator` reads the two
interleave fields only (both are `uint`). -/
structure DataGeneratorConfig where
  Scale : Nat := 0
  Use : String := ""
  TimeStart : String := ""
  TimeEnd : String := ""
  Seed : Int := 0
  LogInterval : Int := 0
  Limit : Nat := 0
  MaxMetricCountPerHost : Nat := 0
  InterleavedGroupID : Nat := 0
  InterleavedNumGroups : Nat := 0
deriving DecidableEq, Repr

/-- The `common.Simulator` interface over an explicit simulator state: `Finished()` and
`Next(point)`, which yields `some p` when it reports that a point was written into the (freshly
reset) point buffer and `none` when it reports that nothing was written. -/
structure Simulator (σ : Type) where
  finished : σ → Bool
  next : σ → σ × Option Point

/-- How a run of `runSimulator` ends. -/
inductive RunResult where
  | returned (err : Option String) (s : St)
  | panicked (msg : String) (s : St)
  | outOfFuel (s : St)
deriving DecidableEq, Repr

/-- The state at the end of a run. -/
def RunResult.st : RunResult → St
  | .returned _ s => s
  | .panicked _ s => s
  | .outOfFuel s => s

/-! ## The operations -/

/-- The Go map lookup `g.fieldMapping[string(fName)]`: the value stored under the key, or the zero
value of `float64`. -/
def lookupField (m : List (String × F64)) (k : String) : F64 :=
  (m.lookup k).getD F64.zero

/-- The tag loop of `writePoint`, `for i := 0; i > len(tagKeys); i++ { ... }`, from index `i`.
An index beyond either slice is Go's run-time panic. The loop stops by its condition or by a
panic within `len(tagValues) + 1` iterations, which is the fuel `writeTags` gives it. -/
def tagLoop (env : Env) (p : Point) : Nat → Nat → RowBuilder → Except String RowBuilder
  | 0, _, _ => .error "unreachable"
  | fuel + 1, i, b =>
    if i > p.tagKeys.length then
      match p.tagValues[i]?, p.tagKeys[i]? with
      | some (.str v), some k =>
        match env.addTagErr k v with
        | some err0 => .error err0
        | none => tagLoop env p fuel (i + 1) (b.AddTag k v)
      | some .nil, _ => tagLoop env p fuel (i + 1) b
      | some (.other _), _ => .error "non-string tags not implemented for lindb"
      | _, _ => .error "index out of range"
    else .ok b

/-- The "write tags" block of `writePoint`. -/
def writeTags (env : Env) (p : Point) (b : RowBuilder) : Except String RowBuilder :=
  tagLoop env p (p.tagValues.length + 1) 0 b

/-- The field loop of `writePoint`, `for i := 1; i < len(fieldKeys); i++ { ... }`, from index
`i`; it runs at most `len(fieldKeys)` times. -/
def fieldLoop (fm : List (String × F64)) (fieldKeys : List String) :
    Nat → Nat → RowBuilder → RowBuilder
  | 0, _, b => b
  | fuel + 1, i, b =>
    match fieldKeys[i]? with
    | some fName =>
      fieldLoop fm fieldKeys fuel (i + 1)
        (b.AddSimpleField fName SimpleFieldType.last (lookupField fm fName))
    | none => b

/-- The "write fields" block of `writePoint`. -/
def writeFields (fm : List (String × F64)) (p : Point) (b : RowBuilder) : RowBuilder :=
  fieldLoop fm p.fieldKeys p.fieldKeys.length 1 b

/-- The row `writePoint` has in the builder when it reaches `g.builder.Build()`, or the panic
raised before that. -/
def buildRow (env : Env) (fm : List (String × F64)) (b0 : RowBuilder) (p : Point) :
    Except String RowBuilder :=
  match writeTags env p ((b0.AddMetricName p.measurementName).AddTimestamp p.timestampMilli) with
  | .error e => .error e
  | .ok b => .ok (writeFields fm p b)

/-- The bytes `writePoint` appends to `buf` for a point, or the panic raised on the way:
the row of `buildRow`, passed through `Build`. -/
def encodePoint (env : Env) (fm : List (String × F64)) (b0 : RowBuilder) (p : Point) :
    Except String Bytes :=
  match buildRow env fm b0 p with
  | .error e => .error e
  | .ok b => env.build b

/-- The number of PUT requests in a trace. -/
def putCount (t : List Event) : Nat :=
  t.countP (fun e => match e with
    | .put _ _ => true
    | _ => false)

/-- Embeds `DataGenerator.flushBuffer`. Writing to and closing a gzip stream over an in-memory
buffer does not fail, so the two `panic(err)` after `Write` and `Close` have no path. -/
def flushBuffer (env : Env) (s : St) : Res :=
  if s.g.batchedSize = 0 then .ok s
  else
    let data := s.g.buf
    let body := env.gzip data
    let r := env.put (putCount s.trace) body
    let s1 : St :=
      { g := { s.g with buf := [], batchedSize := 0, gzipBuf := body }
        trace := s.trace ++ [.gzipReset, .gzipWrite data, .gzipClose, .put data body] }
    match r.err with
    | some err => .panic err s1
    | none => .ok s1

/-- The deferred `g.builder.Reset()` of `writePoint`, run on every way out of it. -/
def resetBuilder : Res → Res
  | .ok s => .ok { s with g := { s.g with builder := RowBuilder.empty } }
  | .panic m s => .panic m { s with g := { s.g with builder := RowBuilder.empty } }

/-- Embeds `DataGenerator.writePoint`. -/
def writePoint (env : Env) (s : St) (p : Point) : Res :=
  let s0 := s.log (.writePoint p)
  resetBuilder <|
    match buildRow env s0.g.fieldMapping s0.g.builder p with
    | .error e => .panic e s0
    | .ok b =>
      let s1 : St := { s0 with g := { s0.g with builder := b } }
      match env.build b with
      | .error e => .panic e s1
      | .ok data =>
        let s2 : St :=
          { s1 with g := { s1.g with buf := s1.g.buf ++ data, batchedSize := s1.g.batchedSize + 1 } }
        if s2.g.batchedSize > 100 then flushBuffer env s2 else .ok s2

/-- How the `for !sim.Finished()` loop of `runSimulator` ends: by its condition, by a panic, or
not within the fuel. -/
inductive LoopResult where
  | exited (s : St)
  | panicked (msg : String) (s : St)
  | outOfFuel (s : St)
deriving DecidableEq, Repr

/-- The state at the end of the loop. -/
def LoopResult.st : LoopResult → St
  | .exited s => s
  | .panicked _ s => s
  | .outOfFuel s => s

/-- The loop of `runSimulator`, from simulator state `ss` and cursor `currGroupID`. A zero
`InterleavedNumGroups` makes the modulo panic. -/
def simLoop {σ : Type} (env : Env) (sim : Simulator σ) (dgc : DataGeneratorConfig) :
    Nat → σ → Nat → St → LoopResult
  | 0, _, _, s => .outOfFuel s
  | fuel + 1, ss, currGroupID, s =>
    let s := s.log (.iter currGroupID)
    if sim.finished ss then .exited (s.log (.finished true))
    else
      let s := s.log (.finished false)
      match sim.next ss with
      | (ss1, none) => simLoop env sim dgc fuel ss1 currGroupID (s.log (.next false))
      | (ss1, some point) =>
        let s := s.log (.next true)
        let r := if currGroupID = dgc.InterleavedGroupID then writePoint env s point else .ok s
        match r with
        | .panic m s1 => .panicked m s1
        | .ok s1 =>
          if dgc.InterleavedNumGroups = 0 then .panicked "integer divide by zero" s1
          else
            simLoop env sim dgc fuel ss1
              (((currGroupID + 1) % 2 ^ 64) % dgc.InterleavedNumGroups) s1

/-- Embeds `DataGenerator.runSimulator`: the loop from cursor 0, then the terminal
`flushBuffer`, then `return nil`. -/
def runSimulator {σ : Type} (env : Env) (sim : Simulator σ) (dgc : DataGeneratorConfig) (fuel : Nat)
    (ss : σ) (s : St) : RunResult :=
  match simLoop env sim dgc fuel ss 0 s with
  | .panicked m s1 => .panicked m s1
  | .outOfFuel s1 => .outOfFuel s1
  | .exited s1 =>
    match flushBuffer env s1 with
    | .panic m s2 => .panicked m s2
    | .ok s2 => .returned none s2

/-- Calls `writePoint` on each point in turn, stopping at the first panic. -/
def writePoints (env : Env) : St → List Point → Res
  | s, [] => .ok s
  | s, p :: ps =>
    match writePoint env s p with
    | .panic m s1 => .panic m s1
    | .ok s1 => writePoints env s1 ps

/-- Calls `flushBuffer` `n` times in a row, stopping at the first panic. -/
def flushTimes (env : Env) : Nat → St → Res
  | 0, s => .ok s
  | n + 1, s =>
    match flushBuffer env s with
    | .panic m s1 => .panic m s1
    | .ok s1 => flushTimes env n s1

/-! ## Observations on traces -/

/-- The number of `Next` calls that reported a written point. -/
def writtenCount (t : List Event) : Nat :=
  t.countP (fun e => match e with
    | .next true => true
    | _ => false)

/-- The number of `Next` calls, written or not. -/
def nextCount (t : List Event) : Nat :=
  t.countP (fun e => match e with
    | .next _ => true
    | _ => false)

/-- The points passed to `writePoint`, in order. -/
def writePointCalls (t : List Event) : List Point :=
  t.filterMap (fun e => match e with
    | .writePoint p => some p
    | _ => none)

/-- The uncompressed bodies of the PUT requests, in order. -/
def pushBodies (t : List Event) : List Bytes :=
  t.filterMap (fun e => match e with
    | .put plain _ => some plain
    | _ => none)

/-- The number of compressor operations (reset, write, close) in a trace. -/
def gzipOps (t : List Event) : Nat :=
  t.countP (fun e => match e with
    | .gzipReset => true
    | .gzipWrite _ => true
    | .gzipClose => true
    | _ => false)

/-- Whether an event is a simulator call (`Finished` or `Next`). -/
def Event.isSimCall : Event → Bool
  | .finished _ => true
  | .next _ => true
  | _ => false

/-- The bytes `writePoint` appends for a point when the builder starts out reset (empty when the
encoding panics). -/
def encBytes (env : Env) (fm : List (String × F64)) (p : Point) : Bytes :=
  match encodePoint env fm RowBuilder.empty p with
  | .ok data => data
  | .error _ => []

/-- One step of `pendingRows`: a `writePoint` adds its row, a PUT empties the batch. -/
def pendingStep (env : Env) (fm : List (String × F64)) (acc : Bytes) : Event → Bytes
  | .writePoint p => acc ++ encBytes env fm p
  | .put _ _ => []
  | _ => acc

/-- The encoded rows of the points passed to `writePoint` since the last PUT of the trace (or
since its start), concatenated in order. -/
def pendingRows (env : Env) (fm : List (String × F64)) (t : List Event) : Bytes :=
  t.foldl (pendingStep env fm) []

/-- The state `writePoint` leaves after appending `data` for `p`, before any flush. -/
def appended (s : St) (p : Point) (data : Bytes) : St :=
  { g := { s.g with
      builder := RowBuilder.empty
      buf := s.g.buf ++ data
      batchedSize := s.g.batchedSize + 1 }
    trace := s.trace ++ [.writePoint p] }

/-- The state `flushBuffer` leaves after pushing a non-empty batch. -/
def flushed (env : Env) (s : St) : St :=
  { g := { s.g with buf := [], batchedSize := 0, gzipBuf := env.gzip s.g.buf }
    trace := s.trace ++
      [.gzipReset, .gzipWrite s.g.buf, .gzipClose, .put s.g.buf (env.gzip s.g.buf)] }

/-- The consistency of a generator with its trace between two calls: the table is `fm`, the
builder is reset, `buf` holds exactly the rows appended since the last PUT, a zero count means an
empty `buf`, and the bytes pushed so far followed by `buf` are the rows of all points written. -/
def Consistent (env : Env) (fm : List (String × F64)) (s : St) : Prop :=
  s.g.fieldMapping = fm ∧ s.g.builder = RowBuilder.empty ∧
  s.g.buf = pendingRows env fm s.trace ∧
  (s.g.batchedSize = 0 → s.g.buf = []) ∧
  (pushBodies s.trace).flatten ++ s.g.buf = (writePointCalls s.trace).flatMap (encBytes env fm)

/-- The attribution invariant of the loop: the cursor is the number of written yields modulo
`N`, and the points passed to `writePoint` are as many as the written yields whose index is
congruent to the group id. -/
def Attributed (dgc : DataGeneratorConfig) (c : Nat) (t : List Event) : Prop :=
  c = writtenCount t % dgc.InterleavedNumGroups ∧
  (writePointCalls t).length =
    Nat.count (fun j => j % dgc.InterleavedNumGroups = dgc.InterleavedGroupID) (writtenCount t)

/-! ## The field table loader -/

/-- Splits a character list at every occurrence of `sep`; the pieces are as many as the
occurrences plus one, so the empty list gives one empty piece. -/
def splitChars (sep : Char) : List Char → List (List Char)
  | [] => [[]]
  | c :: cs =>
    if c = sep then [] :: splitChars sep cs
    else
      match splitChars sep cs with
      | [] => [[c]]
      | piece :: pieces => (c :: piece) :: pieces

/-- Go's `strings.Split(s, sep)` for a separator of one character, as `mapping` uses it (with
a line feed and with a comma). -/
def Split (s : String) (sep : Char) : List String :=
  (splitChars sep s.toList).map String.mk

/-- The loop of `mapping` over the rows still to read, with the map built so far. The Go map is
an association list read by `List.lookup`: `result[k] = val` puts the binding in front, where it
shadows an older one for the same key. `ParseFloat` stands for `strconv.ParseFloat(_, 64)`; its
error is the panic value. -/
def mappingRows (ParseFloat : String → Except String F64) :
    List String → List (String × F64) → Except String (List (String × F64))
  | [], result => .ok result
  | row :: rows, result =>
    match Split row ',' with
    | [c0, c1] =>
      match ParseFloat c1 with
      | .error err => .error err
      | .ok val => mappingRows ParseFloat rows ((c0, val) :: result)
    | _ => mappingRows ParseFloat rows result

/-- Embeds `mapping`: the map read from the text, or the panic. -/
def mapping (ParseFloat : String → Except String F64) (data : String) :
    Except String (List (String × F64)) :=
  mappingRows ParseFloat (Split data '\n') []

/-- The (first field, second field) pairs of the rows that split on a comma into exactly two
fields, in row order. This follows the words of the specification, not the code. -/
def twoFieldRows (rows : List String) : List (String × String) :=
  rows.filterMap (fun row =>
    match Split row ',' with
    | [c0, c1] => some (c0, c1)
    | _ => none)

/-- An entry of the map agrees with a two-field row: same key, and the value is what the second
field parses to. -/
def ParsedAs (ParseFloat : String → Except String F64) (kv : String × F64)
    (kc : String × String) : Prop :=
  kv.1 = kc.1 ∧ ParseFloat kc.2 = .ok kv.2

/-! ## Start-up -/

/-- A value of the interface `common.GeneratorConfig` as `init` tells them apart: the nil
interface, a `*common.DataGeneratorConfig` (pointing to a struct), or a value of another type. -/
inductive GeneratorConfig where
  | nil
  | dataGenerator (c : DataGeneratorConfig)
  | other
deriving DecidableEq, Repr

/-- The constant `ErrNoConfig`. -/
def ErrNoConfig : String := "no GeneratorConfig provided"

/-- The constant `ErrInvalidDataConfig`. -/
def ErrInvalidDataConfig : String := "invalid config: DataGenerator needs a DataGeneratorConfig"

/-- The constant `defaultTimeStart`. -/
def defaultTimeStart : String := "2023-12-13T00:00:00Z"

/-- The constant `defaultTimeEnd`. -/
def defaultTimeEnd : String := "2023-12-16T00:00:00Z"

/-- What `init` reads from outside the function: the two package-level tables, built at package
start from the embedded `iot.csv` and `devops.csv`, and the constant `common.ErrScaleIsZero`. -/
structure Globals where
  IOTFieldMapping : List (String × F64)
  DevOpsFieldMapping : List (String × F64)
  ErrScaleIsZero : String

/-- Embeds `DataGenerator.init`. The generator keeps the pointer it is given, so its writes to
`g.config` are writes to the caller's struct: on success the result carries that struct as
`init` leaves it, next to the generator. On an error nothing modelled here has changed. -/
def DataGenerator.init (g : DataGenerator) (gl : Globals) (config : GeneratorConfig) :
    Except String (DataGeneratorConfig × DataGenerator) :=
  match config with
  | .nil => .error ErrNoConfig
  | .other => .error ErrInvalidDataConfig
  | .dataGenerator c =>
    if c.Scale = 0 then .error gl.ErrScaleIsZero
    else
      let fieldMapping :=
        if c.Use = "devops" then gl.DevOpsFieldMapping
        else if c.Use = "iot" then gl.IOTFieldMapping
        else g.fieldMapping
      .ok ({ c with TimeStart := defaultTimeStart, TimeEnd := defaultTimeEnd },
        { g with fieldMapping := fieldMapping, builder := RowBuilder.empty, buf := [],
                 gzipBuf := [] })

/-- The package `usecases` as `Generate` uses it: `newSimulator` is `GetSimulatorConfig(g.config)`
followed by `NewSimulator(g.config.LogInterval, g.config.Limit)` and gives the error of the
former or the initial state of the simulator; `sim` is the simulator's behaviour. -/
structure Usecases (σ : Type) where
  newSimulator : DataGeneratorConfig → Except String σ
  sim : Simulator σ

/-- What a call of `Generate` leaves: the caller's configuration value after the call, the
configuration handed to `GetSimulatorConfig` if that was called at all, and how the call ended
(the returned error, a panic, or no end within the fuel). -/
structure GenerateResult where
  config : GeneratorConfig
  handed : Option DataGeneratorConfig
  run : RunResult

/-- Embeds `DataGenerator.Generate`. -/
def DataGenerator.Generate {σ : Type} (gl : Globals) (env : Env) (uc : Usecases σ) (fuel : Nat)
    (s : St) (config : GeneratorConfig) : GenerateResult :=
  match s.g.init gl config with
  | .error err => ⟨config, none, .returned (some err) s⟩
  | .ok (c, g) =>
    match uc.newSimulator c with
    | .error err => ⟨.dataGenerator c, some c, .returned (some err) { s with g := g }⟩
    | .ok ss => ⟨.dataGenerator c, some c, runSimulator env uc.sim c fuel ss { s with g := g }⟩

/-! ## Further observations on runs -/

/-- Whether a run ended in a panic. -/
def RunResult.isPanicked : RunResult → Bool
  | .panicked _ _ => true
  | _ => false

/-- Whether a loop ended in a panic. -/
def LoopResult.isPanicked : LoopResult → Bool
  | .panicked _ _ => true
  | _ => false

/-- Collaborators that never fail: `Build` returns a row for every builder state and `Put`
never returns an error. -/
def Env.NeverFails (env : Env) : Prop :=
  (∀ b, ∃ data, env.build b = .ok data) ∧ ∀ n body, (env.put n body).err = none

/-- Whether the simulator, stepped by `Next` from state `ss`, reports finished at one of the
first `fuel` calls of `Finished`. -/
def finishesWithin {σ : Type} (sim : Simulator σ) : Nat → σ → Bool
  | 0, _ => false
  | fuel + 1, ss => sim.finished ss || finishesWithin sim fuel (sim.next ss).1

/-- The yields of the simulator from state `ss`, one per call of `Next`, until it reports
finished or `fuel` calls of `Finished` have been made. -/
def yields {σ : Type} (sim : Simulator σ) : Nat → σ → List (Option Point)
  | 0, _ => []
  | fuel + 1, ss =>
    if sim.finished ss then [] else (sim.next ss).2 :: yields sim fuel (sim.next ss).1

/-- Among the yields, the written ones whose index (counting written yields only, from `j`) is
congruent to `g` modulo `N`. This follows the words of the specification, not the code. -/
def attributedFrom (N g : Nat) : Nat → List (Option Point) → List Point
  | _, [] => []
  | j, none :: ys => attributedFrom N g j ys
  | j, some p :: ys =>
    if j % N = g then p :: attributedFrom N g (j + 1) ys else attributedFrom N g (j + 1) ys

/-- Whether every loop head of the trace shows the cursor `w % N`, where `w` counts the `Next`
calls that reported a written point before it, starting from `w0`. -/
def cursorsFrom (N : Nat) : Nat → List Event → Prop
  | _, [] => True
  | w, e :: t =>
    (match e with
      | .iter c => c = w % N
      | _ => True) ∧
    cursorsFrom N (w + (match e with
      | .next true => 1
      | _ => 0)) t

/-- One step of counting the `writePoint` calls since the last PUT: a call adds one, a PUT
starts again from zero. -/
def countStep (k : Nat) : Event → Nat
  | .writePoint _ => k + 1
  | .put _ _ => 0
  | _ => k

/-- Whether every PUT of the trace comes after exactly `rows` calls of `writePoint` since the
PUT before it (or since the start) and has as its uncompressed body exactly the encoded rows of
the points of those calls, in order. `k` and `acc` are the calls and rows counted so far. -/
def pushesCarry (env : Env) (fm : List (String × F64)) (rows : Nat) :
    Nat → Bytes → List Event → Prop
  | _, _, [] => True
  | k, acc, e :: t =>
    (match e with
      | .put plain _ => k = rows ∧ plain = acc
      | _ => True) ∧
    pushesCarry env fm rows (countStep k e) (pendingStep env fm acc e) t

/-- The invariant of the batch between two `writePoint` calls: the generator is consistent with
its trace, `batchedSize` counts the calls since the last PUT and is at most 100, every PUT so
far carried exactly 101 rows, and the calls so far are 101 per PUT plus `batchedSize`. -/
def Batched (env : Env) (fm : List (String × F64)) (s : St) : Prop :=
  Consistent env fm s ∧
  s.g.batchedSize = s.trace.foldl countStep 0 ∧
  s.g.batchedSize ≤ 100 ∧
  pushesCarry env fm 101 0 [] s.trace ∧
  (writePointCalls s.trace).length = 101 * putCount s.trace + s.g.batchedSize

/-! ## Sample inputs -/

/-- A simulator that replays a finite list of yields and is finished when the list is used up. -/
def listSim : Simulator (List (Option Point)) where
  finished := fun l => l.isEmpty
  next := fun l =>
    match l with
    | [] => ([], none)
    | y :: rest => (rest, y)

/-- An encoder that accepts every tag and row: a row is encoded as the bytes of its metric name
followed by its tag count and field count. -/
def sampleBuild (b : RowBuilder) : Except String Bytes :=
  .ok (b.metricName.toList.map Char.toNat ++ [b.tags.length, b.fields.length])

/-- Collaborators that never fail: the sample encoder, an identity compressor and a write
endpoint that answers every request with 204. -/
def sampleEnv : Env where
  addTagErr := fun _ _ => none
  build := sampleBuild
  gzip := fun d => d
  put := fun _ _ => ⟨204, none⟩

/-- A configuration with the given interleave group id and group count. -/
def groups (groupID numGroups : Nat) : DataGeneratorConfig :=
  { InterleavedGroupID := groupID, InterleavedNumGroups := numGroups }

/-- A generator as `init` leaves it, with the given field table. -/
def freshGen (fm : List (String × F64)) : DataGenerator :=
  ⟨fm, RowBuilder.empty, [], [], 0⟩

/-- The bit pattern of the `float64` 12.5. -/
def f12_5 : F64 := ⟨0x4029000000000000⟩

/-- The point of the round-trip example: metric `cpu`, 2023-12-13T00:00:01Z, tag
`hostname=host_0`, the single field key `usage_user`. -/
def cpuPoint : Point :=
  ⟨"cpu", 1702425601000, ["hostname"], [.str "host_0"], ["usage_user"]⟩

/-- A point whose only tag has a numeric value. -/
def numericTagPoint : Point :=
  ⟨"cpu", 1702425601000, ["hostname"], [.other 42], ["usage_user", "usage_system"]⟩

/-- A point with one field key. -/
def idlePoint : Point :=
  ⟨"cpu", 1702425601000, [], [], ["usage_idle"]⟩

/-- A point with two field keys. -/
def idleNicePoint : Point :=
  ⟨"cpu", 1702425601000, [], [], ["usage_idle", "usage_nice"]⟩

/-- A write endpoint that answers every request with the status 500 and no transport error. -/
def rejectingEnv : Env :=
  { sampleEnv with put := fun _ _ => ⟨500, none⟩ }

/-- A write endpoint that cannot be reached: every request ends in a transport error. -/
def unreachableEnv : Env :=
  { sampleEnv with put := fun _ _ => ⟨0, some "connection refused"⟩ }

/-- A generator holding a batch of one row. -/
def oneRowSt : St :=
  ⟨{ freshGen [] with buf := [99, 112, 117, 0, 0], batchedSize := 1 }, []⟩

/-- A stand-in for `strconv.ParseFloat` that knows two literals. -/
def sampleParseFloat (s : String) : Except String F64 :=
  if s = "12.5" then .ok f12_5
  else if s = "0" then .ok F64.zero
  else .error "invalid syntax"

/-- Package-level tables for the samples. -/
def sampleGlobals : Globals where
  IOTFieldMapping := []
  DevOpsFieldMapping := [("usage_user", f12_5)]
  ErrScaleIsZero := "scale cannot be 0"

/-- A `usecases` package whose simulator replays the given yields for every configuration. -/
def replayUsecases (ys : List (Option Point)) : Usecases (List (Option Point)) where
  newSimulator := fun _ => .ok ys
  sim := listSim

/-- The configuration of `TestDataGenerator_Generate`: `LogInterval` one second,
`InterleavedNumGroups` 10, `Scale` 2, `Use` devops. -/
def testConfig : DataGeneratorConfig :=
  { LogInterval := 1000000000, InterleavedNumGroups := 10, Scale := 2, Use := "devops" }

/-- A configuration with a time window of its own. -/
def windowConfig : DataGeneratorConfig :=
  { Scale := 1, Use := "devops", TimeStart := "2020-01-01T00:00:00Z",
    TimeEnd := "2020-01-02T00:00:00Z", InterleavedNumGroups := 1 }

/-! ## Traces -/

@[simp]
theorem putCount_append (t u : List Event) :
    putCount (t ++ u) = putCount t + putCount u := by
  simp [putCount, List.countP_append]

@[simp]
theorem writtenCount_append (t u : List Event) :
    writtenCount (t ++ u) = writtenCount t + writtenCount u := by
  simp [writtenCount, List.countP_append]

@[simp]
theorem nextCount_append (t u : List Event) :
    nextCount (t ++ u) = nextCount t + nextCount u := by
  simp [nextCount, List.countP_append]

@[simp]
theorem gzipOps_append (t u : List Event) :
    gzipOps (t ++ u) = gzipOps t + gzipOps u := by
  simp [gzipOps, List.countP_append]

@[simp]
theorem writePointCalls_append (t u : List Event) :
    writePointCalls (t ++ u) = writePointCalls t ++ writePointCalls u := by
  simp [writePointCalls, List.filterMap_append]

@[simp]
theorem pushBodies_append (t u : List Event) :
    pushBodies (t ++ u) = pushBodies t ++ pushBodies u := by
  simp [pushBodies, List.filterMap_append]

@[simp]
theorem putCount_nil : putCount [] = 0 := rfl

@[simp]
theorem writtenCount_nil : writtenCount [] = 0 := rfl

@[simp]
theorem nextCount_nil : nextCount [] = 0 := rfl

@[simp]
theorem gzipOps_nil : gzipOps [] = 0 := rfl

@[simp]
theorem writePointCalls_nil : writePointCalls [] = [] := rfl

@[simp]
theorem pushBodies_nil : pushBodies [] = [] := rfl

@[simp]
theorem putCount_cons (e : Event) (t : List Event) :
    putCount (e :: t) = putCount t + (match e with
      | .put _ _ => 1
      | _ => 0) := by
  cases e <;> simp [putCount, List.countP_cons]

@[simp]
theorem writtenCount_cons (e : Event) (t : List Event) :
    writtenCount (e :: t) = writtenCount t + (match e with
      | .next true => 1
      | _ => 0) := by
  rcases e with _ | _ | ⟨_ | _⟩ | _ | _ | _ | _ | _ <;> simp [writtenCount, List.countP_cons]

@[simp]
theorem nextCount_cons (e : Event) (t : List Event) :
    nextCount (e :: t) = nextCount t + (match e with
      | .next _ => 1
      | _ => 0) := by
  cases e <;> simp [nextCount, List.countP_cons]

@[simp]
theorem gzipOps_cons (e : Event) (t : List Event) :
    gzipOps (e :: t) = gzipOps t + (match e with
      | .gzipReset => 1
      | .gzipWrite _ => 1
      | .gzipClose => 1
      | _ => 0) := by
  cases e <;> simp [gzipOps, List.countP_cons]

@[simp]
theorem writePointCalls_cons (e : Event) (t : List Event) :
    writePointCalls (e :: t) = (match e with
      | .writePoint p => [p]
      | _ => []) ++ writePointCalls t := by
  cases e <;> simp [writePointCalls, List.filterMap_cons]

@[simp]
theorem pushBodies_cons (e : Event) (t : List Event) :
    pushBodies (e :: t) = (match e with
      | .put plain _ => [plain]
      | _ => []) ++ pushBodies t := by
  cases e <;> simp [pushBodies, List.filterMap_cons]

@[simp]
theorem pendingRows_append (env : Env) (fm : List (String × F64)) (t u : List Event) :
    pendingRows env fm (t ++ u) = u.foldl (pendingStep env fm) (pendingRows env fm t) := by
  simp [pendingRows, List.foldl_append]

/-! ## The row built for a point -/

/-- The tag loop never runs its body: its condition `i > len(tagKeys)` is false at `i = 0`. -/
theorem writeTags_eq (env : Env) (p : Point) (b : RowBuilder) : writeTags env p b = .ok b := by
  simp [writeTags, tagLoop]

/-- From index `i` and with enough fuel, the field loop adds the keys from `i` on. -/
theorem fieldLoop_eq (fm : List (String × F64)) (keys : List String) :
    ∀ (fuel i : Nat) (b : RowBuilder), keys.length ≤ fuel + i →
      fieldLoop fm keys fuel i b =
        { b with fields := b.fields ++
            (keys.drop i).map (fun k => ⟨k, SimpleFieldType.last, lookupField fm k⟩) } := by
  intro fuel
  induction fuel with
  | zero =>
    intro i b h
    have hd : keys.drop i = [] := List.drop_eq_nil_of_le (by omega)
    simp [fieldLoop, hd]
  | succ n ih =>
    intro i b h
    unfold fieldLoop
    by_cases hi : i < keys.length
    · rw [List.getElem?_eq_getElem hi]
      simp only
      rw [ih (i + 1) _ (by omega)]
      rw [List.drop_eq_getElem_cons hi]
      simp only [RowBuilder.AddSimpleField, List.map_cons, List.append_assoc,
        List.singleton_append]
    · have hd : keys.drop i = [] := List.drop_eq_nil_of_le (by omega)
      rw [List.getElem?_eq_none (by omega)]
      simp [hd]

/-- The field block adds one field per field key from the second on (index 1), and none for the
first. -/
theorem writeFields_eq (fm : List (String × F64)) (p : Point) (b : RowBuilder) :
    writeFields fm p b =
      { b with fields := b.fields ++
          (p.fieldKeys.drop 1).map (fun k => ⟨k, SimpleFieldType.last, lookupField fm k⟩) } :=
  fieldLoop_eq fm p.fieldKeys p.fieldKeys.length 1 b (by omega)

/-- The row in the builder at `Build`, for every point: no panic, no tag, no first field. -/
theorem buildRow_eq (env : Env) (fm : List (String × F64)) (b0 : RowBuilder) (p : Point) :
    buildRow env fm b0 p = .ok
      { metricName := p.measurementName
        timestamp := p.timestampMilli
        tags := b0.tags
        fields := b0.fields ++
          (p.fieldKeys.drop 1).map (fun k => ⟨k, SimpleFieldType.last, lookupField fm k⟩) } := by
  simp [buildRow, writeTags_eq, writeFields_eq, RowBuilder.AddMetricName,
    RowBuilder.AddTimestamp]

/-- C1 (code defect): for the point `cpu` with the single tag `hostname=host_0`, the row that
`writePoint` builds has an empty tag set, not `{hostname: host_0}`, whatever the collaborators
and the field table are. -/
theorem writePoint_row_drops_string_tag (env : Env) (fm : List (String × F64)) :
    Except.map RowBuilder.tags (buildRow env fm RowBuilder.empty cpuPoint) = .ok [] ∧
    Except.map RowBuilder.tags (buildRow env fm RowBuilder.empty cpuPoint)
      ≠ .ok [("hostname", "host_0")] := by
  rw [buildRow_eq]
  simp [Except.map, RowBuilder.empty]

/-- C2 (code defect): for the point with the single field key `usage_user`, under the table
`{usage_user: 12.5}`, the row that `writePoint` builds has no field at all, not the one field
`usage_user = 12.5`. -/
theorem writePoint_row_drops_first_field (env : Env) :
    Except.map RowBuilder.fields
        (buildRow env [("usage_user", f12_5)] RowBuilder.empty cpuPoint) = .ok [] ∧
    Except.map RowBuilder.fields
        (buildRow env [("usage_user", f12_5)] RowBuilder.empty cpuPoint)
      ≠ .ok [⟨"usage_user", SimpleFieldType.last, f12_5⟩] := by
  rw [buildRow_eq]
  simp [Except.map, RowBuilder.empty, cpuPoint]

/-- C7 (code defect): for a point with a numeric tag value `writePoint` reaches `Build` without
a panic, whatever the collaborators are, and with collaborators that accept the row it returns
normally with the row appended to `buf` and `batchedSize` incremented. -/
theorem writePoint_numeric_tag_no_panic (env : Env) (fm : List (String × F64))
    (b0 : RowBuilder) :
    (buildRow env fm b0 numericTagPoint).toBool = true ∧
    writePoint sampleEnv ⟨freshGen [], []⟩ numericTagPoint =
      .ok ⟨{ freshGen [] with buf := [99, 112, 117, 0, 1], batchedSize := 1 },
        [.writePoint numericTagPoint]⟩ := by
  constructor
  · rw [buildRow_eq]; rfl
  · rfl

/-- C10 (code defect): a field key absent from the table is encoded with the value 0.0 only when
it is not the point's first field key. For the point with the single field key `usage_idle` the
row has no field; for the field keys `usage_idle, usage_nice` it has `usage_nice = 0.0` alone. -/
theorem writePoint_row_missing_first_field (env : Env) :
    Except.map RowBuilder.fields
        (buildRow env [("usage_user", f12_5)] RowBuilder.empty idlePoint) = .ok [] ∧
    Except.map RowBuilder.fields
        (buildRow env [("usage_user", f12_5)] RowBuilder.empty idleNicePoint) =
      .ok [⟨"usage_nice", SimpleFieldType.last, F64.zero⟩] := by
  constructor <;> rfl

/-! ## `flushBuffer` and `writePoint`, case by case -/

/-- With a zero count `flushBuffer` returns at once. -/
theorem flushBuffer_zero (env : Env) (s : St) (h : s.g.batchedSize = 0) :
    flushBuffer env s = .ok s := by
  simp [flushBuffer, h]

/-- With a non-zero count `flushBuffer` compresses and pushes `buf`, and panics exactly on a
non-nil error of `Put`. -/
theorem flushBuffer_pos (env : Env) (s : St) (h : s.g.batchedSize ≠ 0) :
    flushBuffer env s =
      match (env.put (putCount s.trace) (env.gzip s.g.buf)).err with
      | some err => .panic err (flushed env s)
      | none => .ok (flushed env s) := by
  simp [flushBuffer, h, flushed]

/-- The state `flushBuffer` leaves, whether it panics or not. -/
theorem flushBuffer_st (env : Env) (s : St) :
    (flushBuffer env s).st = if s.g.batchedSize = 0 then s else flushed env s := by
  by_cases h : s.g.batchedSize = 0
  · simp [flushBuffer_zero env s h, h, Res.st]
  · rw [flushBuffer_pos env s h, if_neg h]
    cases (env.put (putCount s.trace) (env.gzip s.g.buf)).err <;> rfl

/-- The deferred builder reset commutes with `flushBuffer`, which never reads the builder. -/
theorem resetBuilder_flushBuffer (env : Env) (s : St) :
    resetBuilder (flushBuffer env s) =
      flushBuffer env { s with g := { s.g with builder := RowBuilder.empty } } := by
  by_cases h : s.g.batchedSize = 0
  · simp [flushBuffer, h, resetBuilder]
  · simp only [flushBuffer, h, if_false]
    cases (env.put (putCount s.trace) (env.gzip s.g.buf)).err <;> simp [resetBuilder]

/-- When the row of `p` cannot be built, `writePoint` panics and appends nothing. -/
theorem writePoint_error (env : Env) (s : St) (p : Point) (e : String)
    (h : encodePoint env s.g.fieldMapping s.g.builder p = .error e) :
    writePoint env s p =
      .panic e { g := { s.g with builder := RowBuilder.empty }
                 trace := s.trace ++ [.writePoint p] } := by
  rw [encodePoint, buildRow_eq] at h
  simp only [writePoint, St.log, buildRow_eq]
  simp only at h
  rw [h]
  rfl

/-- When the row of `p` is built as `data`, `writePoint` appends it, counts it and flushes when
the count has passed 100. -/
theorem writePoint_ok (env : Env) (s : St) (p : Point) (data : Bytes)
    (h : encodePoint env s.g.fieldMapping s.g.builder p = .ok data) :
    writePoint env s p =
      if s.g.batchedSize + 1 > 100 then flushBuffer env (appended s p data)
      else .ok (appended s p data) := by
  rw [encodePoint, buildRow_eq] at h
  simp only [writePoint, St.log, buildRow_eq]
  simp only at h
  rw [h]
  simp only
  split
  · rw [resetBuilder_flushBuffer]; rfl
  · rfl

/-- While the count stays at or below 100, a sequence of `writePoint` calls whose rows all encode
appends the rows and records nothing but the calls. -/
theorem writePoints_no_flush (env : Env) (fm : List (String × F64)) :
    ∀ (ps : List Point) (s : St), s.g.fieldMapping = fm → s.g.builder = RowBuilder.empty →
      s.g.batchedSize + ps.length ≤ 100 →
      (∀ q ∈ ps, (encodePoint env fm RowBuilder.empty q).toBool = true) →
      writePoints env s ps = .ok
        { g := { s.g with
            buf := s.g.buf ++ ps.flatMap (encBytes env fm)
            batchedSize := s.g.batchedSize + ps.length }
          trace := s.trace ++ ps.map Event.writePoint } := by
  intro ps
  induction ps with
  | nil => intro s _ _ _ _; simp [writePoints]
  | cons p ps ih =>
    intro s hfm hb hle henc
    have hp := henc p (List.mem_cons_self _ _)
    cases hd : encodePoint env fm RowBuilder.empty p with
    | error e => rw [hd] at hp; simp [Except.toBool] at hp
    | ok data =>
      have hw : writePoint env s p = .ok (appended s p data) := by
        rw [writePoint_ok env s p data (by rw [hfm, hb]; exact hd)]
        simp only [List.length_cons] at hle
        rw [if_neg (by omega)]
      simp only [writePoints, hw]
      rw [ih (appended s p data) hfm rfl
        (by simp only [appended, List.length_cons] at hle ⊢; omega)
        (fun q hq => henc q (List.mem_cons_of_mem _ hq))]
      simp [appended, encBytes, hd, hb, Nat.add_assoc, Nat.add_comm 1]

/-- C4: starting from an empty accumulator, 100 `writePoint` calls whose rows encode return
normally and record nothing but the calls (no compressor operation, no PUT) and leave the count
at 100; the 101st call records, after itself, exactly one compression and one PUT of the 101
rows, and leaves `batchedSize = 0` and `buf` empty. -/
theorem writePoint_flushes_at_101 (env : Env) (s : St) (ps : List Point) (p : Point)
    (hbs : s.g.batchedSize = 0) (hbuf : s.g.buf = []) (hb : s.g.builder = RowBuilder.empty)
    (hlen : ps.length = 100)
    (henc : ∀ q ∈ ps ++ [p],
      (encodePoint env s.g.fieldMapping RowBuilder.empty q).toBool = true) :
    ∃ s100 : St, writePoints env s ps = .ok s100 ∧
      s100.trace = s.trace ++ ps.map Event.writePoint ∧
      s100.g.batchedSize = 100 ∧
      (writePoint env s100 p).st.trace = s100.trace ++
        [.writePoint p, .gzipReset,
          .gzipWrite ((ps ++ [p]).flatMap (encBytes env s.g.fieldMapping)), .gzipClose,
          .put ((ps ++ [p]).flatMap (encBytes env s.g.fieldMapping))
            (env.gzip ((ps ++ [p]).flatMap (encBytes env s.g.fieldMapping)))] ∧
      (writePoint env s100 p).st.g.batchedSize = 0 ∧
      (writePoint env s100 p).st.g.buf = [] := by
  have h100 := writePoints_no_flush env s.g.fieldMapping ps s rfl hb (by omega)
    (fun q hq => henc q (List.mem_append_left _ hq))
  refine ⟨_, h100, rfl, by simp [hbs, hlen], ?_⟩
  have hp := henc p (List.mem_append_right _ (List.mem_singleton_self p))
  cases hd : encodePoint env s.g.fieldMapping RowBuilder.empty p with
  | error e => rw [hd] at hp; simp [Except.toBool] at hp
  | ok data =>
    rw [writePoint_ok env _ p data (by simpa [hb] using hd)]
    simp only [hbs, hlen, Nat.zero_add]
    rw [if_pos (by omega), flushBuffer_st]
    simp [appended, flushed, hbuf, encBytes, hd]

/-- C4, at a concrete input: 101 calls for the point `cpu` with collaborators that never fail. -/
theorem writePoint_flushes_at_101_witness :
    ∃ s100 : St, writePoints sampleEnv ⟨freshGen [], []⟩ (List.replicate 100 cpuPoint) = .ok s100 ∧
      s100.trace = [] ++ (List.replicate 100 cpuPoint).map Event.writePoint ∧
      s100.g.batchedSize = 100 ∧
      (writePoint sampleEnv s100 cpuPoint).st.trace = s100.trace ++
        [.writePoint cpuPoint, .gzipReset,
          .gzipWrite ((List.replicate 100 cpuPoint ++ [cpuPoint]).flatMap (encBytes sampleEnv [])),
          .gzipClose,
          .put ((List.replicate 100 cpuPoint ++ [cpuPoint]).flatMap (encBytes sampleEnv []))
            (sampleEnv.gzip
              ((List.replicate 100 cpuPoint ++ [cpuPoint]).flatMap (encBytes sampleEnv [])))] ∧
      (writePoint sampleEnv s100 cpuPoint).st.g.batchedSize = 0 ∧
      (writePoint sampleEnv s100 cpuPoint).st.g.buf = [] :=
  writePoint_flushes_at_101 sampleEnv ⟨freshGen [], []⟩ (List.replicate 100 cpuPoint) cpuPoint
    rfl rfl rfl (List.length_replicate _ _)
    (fun q _ => by simp [encodePoint, buildRow_eq, sampleEnv, sampleBuild, Except.toBool])

/-- C8: `flushBuffer` on a zero count returns the state and the trace it was given (so `buf`,
`gzipBuf` and `batchedSize` are unchanged and no compressor operation or PUT is recorded), and so
does any number of such calls in a row. -/
theorem flushBuffer_empty_noop (env : Env) (s : St) (n : Nat) (h : s.g.batchedSize = 0) :
    flushBuffer env s = .ok s ∧ flushTimes env n s = .ok s := by
  refine ⟨flushBuffer_zero env s h, ?_⟩
  induction n with
  | zero => rfl
  | succ n ih => simp [flushTimes, flushBuffer_zero env s h, ih]

/-- C8, at a concrete input: three flushes of a fresh generator. -/
theorem flushBuffer_empty_noop_witness :
    flushBuffer unreachableEnv ⟨freshGen [], []⟩ = .ok ⟨freshGen [], []⟩ ∧
    flushTimes unreachableEnv 3 ⟨freshGen [], []⟩ = .ok ⟨freshGen [], []⟩ :=
  flushBuffer_empty_noop unreachableEnv ⟨freshGen [], []⟩ 3 rfl

/-- C9, refuted as stated: when the endpoint answers 500 without a transport error,
`flushBuffer` does not panic and the run returns nil, while a transport error makes the same
flush panic. -/
theorem flushBuffer_ignores_status_500 :
    (rejectingEnv.put 0 (rejectingEnv.gzip oneRowSt.g.buf)).status = 500 ∧
    (flushBuffer rejectingEnv oneRowSt).isPanic = false ∧
    (flushBuffer unreachableEnv oneRowSt).isPanic = true ∧
    ∃ s, runSimulator rejectingEnv listSim (groups 0 1) 2 [some cpuPoint] ⟨freshGen [], []⟩ =
      .returned none s ∧ putCount s.trace = 1 := by
  refine ⟨rfl, rfl, rfl, _, rfl, rfl⟩

/-- C9, amended: a flush of a non-empty batch makes one PUT and panics exactly when `Put`
returns a non-nil (transport-level) error; the status of the response plays no part. -/
theorem flushBuffer_panics_iff_transport_error (env : Env) (s : St)
    (h : s.g.batchedSize ≠ 0) :
    (flushBuffer env s).isPanic =
      (env.put (putCount s.trace) (env.gzip s.g.buf)).err.isSome ∧
    (flushBuffer env s).st.trace = s.trace ++
      [.gzipReset, .gzipWrite s.g.buf, .gzipClose, .put s.g.buf (env.gzip s.g.buf)] := by
  rw [flushBuffer_pos env s h]
  cases (env.put (putCount s.trace) (env.gzip s.g.buf)).err <;> exact ⟨rfl, rfl⟩

/-- C9 amended, at a concrete input: the endpoint answering 500. -/
theorem flushBuffer_panics_iff_transport_error_witness :
    (flushBuffer rejectingEnv oneRowSt).isPanic =
      (rejectingEnv.put (putCount oneRowSt.trace)
        (rejectingEnv.gzip oneRowSt.g.buf)).err.isSome ∧
    (flushBuffer rejectingEnv oneRowSt).st.trace = oneRowSt.trace ++
      [.gzipReset, .gzipWrite oneRowSt.g.buf, .gzipClose,
        .put oneRowSt.g.buf (rejectingEnv.gzip oneRowSt.g.buf)] :=
  flushBuffer_panics_iff_transport_error rejectingEnv oneRowSt (by decide)


/-! ## The interleave cursor -/

/-- Among the first `k * N` indices exactly `k` are congruent to `g` modulo `N`, for `g < N`. -/
theorem count_mod_eq (N g k : Nat) (hg : g < N) :
    Nat.count (fun j => j % N = g) (k * N) = k := by
  have h := Nat.count_modEq_card (b := k * N) (Nat.lt_of_le_of_lt (Nat.zero_le g) hg) g
  simpa [Nat.ModEq, Nat.mod_eq_of_lt hg, Nat.mul_div_cancel _ (Nat.lt_of_le_of_lt (Nat.zero_le g) hg)]
    using h

/-- What one `writePoint` call records: itself, then at most one flush. -/
theorem writePoint_trace (env : Env) (s : St) (p : Point) :
    ∃ es : List Event, (writePoint env s p).st.trace = s.trace ++ Event.writePoint p :: es ∧
      (es = [] ∨ ∃ d : Bytes, es = [.gzipReset, .gzipWrite d, .gzipClose, .put d (env.gzip d)]) := by
  cases hd : encodePoint env s.g.fieldMapping s.g.builder p with
  | error e =>
    rw [writePoint_error env s p e hd]
    exact ⟨[], rfl, Or.inl rfl⟩
  | ok data =>
    rw [writePoint_ok env s p data hd]
    split
    · rw [flushBuffer_st, if_neg (by simp [appended])]
      exact ⟨[.gzipReset, .gzipWrite (s.g.buf ++ data), .gzipClose,
        .put (s.g.buf ++ data) (env.gzip (s.g.buf ++ data))],
        by simp [flushed, appended], Or.inr ⟨_, rfl⟩⟩
    · exact ⟨[], rfl, Or.inl rfl⟩

/-- A `writePoint` call adds no simulator call and exactly one point to the trace. -/
theorem writePoint_counts (env : Env) (s : St) (p : Point) :
    writtenCount (writePoint env s p).st.trace = writtenCount s.trace ∧
    writePointCalls (writePoint env s p).st.trace = writePointCalls s.trace ++ [p] := by
  obtain ⟨es, ht, hes⟩ := writePoint_trace env s p
  rw [ht]
  rcases hes with rfl | ⟨d, rfl⟩ <;> simp

/-- A `flushBuffer` call adds no simulator call and no point to the trace. -/
theorem flushBuffer_counts (env : Env) (s : St) :
    writtenCount (flushBuffer env s).st.trace = writtenCount s.trace ∧
    writePointCalls (flushBuffer env s).st.trace = writePointCalls s.trace := by
  rw [flushBuffer_st]
  split <;> simp [flushed]

/-- The loop keeps the attribution invariant, however it ends. -/
theorem simLoop_attributed {σ : Type} (env : Env) (sim : Simulator σ) (dgc : DataGeneratorConfig)
    (hN : 1 ≤ dgc.InterleavedNumGroups) (hN64 : dgc.InterleavedNumGroups < 2 ^ 64) :
    ∀ (fuel : Nat) (ss : σ) (c : Nat) (s : St), Attributed dgc c s.trace →
      (writePointCalls (simLoop env sim dgc fuel ss c s).st.trace).length =
        Nat.count (fun j => j % dgc.InterleavedNumGroups = dgc.InterleavedGroupID)
          (writtenCount (simLoop env sim dgc fuel ss c s).st.trace) := by
  intro fuel
  induction fuel with
  | zero => intro ss c s h; exact h.2
  | succ n ih =>
    intro ss c s h
    obtain ⟨hc, hcount⟩ := h
    unfold simLoop
    simp only
    split
    · simpa [LoopResult.st, St.log] using hcount
    · split
      · apply ih
        constructor
        · simpa [St.log] using hc
        · simpa [St.log] using hcount
      · rename_i ss1 point _
        have hcn : c < dgc.InterleavedNumGroups := by
          rw [hc]; exact Nat.mod_lt _ (by omega)
        have hnext : ((c + 1) % 2 ^ 64) % dgc.InterleavedNumGroups =
            (writtenCount s.trace + 1) % dgc.InterleavedNumGroups := by
          rw [Nat.mod_eq_of_lt (by omega : c + 1 < 2 ^ 64), hc, Nat.mod_add_mod]
        by_cases hg : c = dgc.InterleavedGroupID
        · simp only [hg, if_true]
          have hw := writePoint_counts env
            (((s.log (.iter dgc.InterleavedGroupID)).log (.finished false)).log (.next true))
            point
          cases hr : writePoint env
            (((s.log (.iter dgc.InterleavedGroupID)).log (.finished false)).log (.next true))
            point with
          | panic m s1 =>
            rw [hr] at hw
            simp only [Res.st, St.log, List.append_assoc, writtenCount_append,
              writePointCalls_append] at hw
            simp only [LoopResult.st, hw.1, hw.2]
            simp [hcount, Nat.count_succ, ← hc, hg]
          | ok s1 =>
            rw [hr] at hw
            simp only [Res.st, St.log, List.append_assoc, writtenCount_append,
              writePointCalls_append] at hw
            simp only
            rw [if_neg (by omega)]
            apply ih
            constructor
            · rw [← hg, hnext, hw.1]; simp
            · rw [hw.1, hw.2]
              simp [hcount, Nat.count_succ, ← hc, hg]
        · simp only [hg, if_false]
          rw [if_neg (by omega)]
          apply ih
          constructor
          · rw [hnext]; simp [St.log]
          · simp [St.log, hcount, Nat.count_succ, ← hc, hg]

/-- C3, refuted as stated: with one group, one yield for which `Next` reports nothing written
is `1 * 1` yields, and no point is passed to `writePoint`. -/
theorem runSimulator_unwritten_yield_not_attributed :
    nextCount (runSimulator sampleEnv listSim (groups 0 1) 2 [none] ⟨freshGen [], []⟩).st.trace
      = 1 * 1 ∧
    (writePointCalls
      (runSimulator sampleEnv listSim (groups 0 1) 2 [none] ⟨freshGen [], []⟩).st.trace).length
      ≠ 1 := by
  constructor
  · rfl
  · decide

/-- C3, amended: for `N ≥ 1` groups and a group id `g < N`, a run of `runSimulator` (from cursor
0) in which exactly `k * N` calls of `Next` reported a written point has passed exactly `k`
points to `writePoint`; calls of `Next` that reported nothing written do not count. This holds
however the run ends. -/
theorem runSimulator_interleave {σ : Type} (env : Env) (sim : Simulator σ) (dgc : DataGeneratorConfig)
    (fuel : Nat) (ss : σ) (g : DataGenerator) (k : Nat)
    (hN : 1 ≤ dgc.InterleavedNumGroups) (hN64 : dgc.InterleavedNumGroups < 2 ^ 64)
    (hg : dgc.InterleavedGroupID < dgc.InterleavedNumGroups)
    (hk : writtenCount (runSimulator env sim dgc fuel ss ⟨g, []⟩).st.trace
      = k * dgc.InterleavedNumGroups) :
    (writePointCalls (runSimulator env sim dgc fuel ss ⟨g, []⟩).st.trace).length = k := by
  have hloop := simLoop_attributed env sim dgc hN hN64 fuel ss 0 ⟨g, []⟩
    ⟨by simp, by simp⟩
  have hrun : writtenCount (runSimulator env sim dgc fuel ss ⟨g, []⟩).st.trace =
        writtenCount (simLoop env sim dgc fuel ss 0 ⟨g, []⟩).st.trace ∧
      writePointCalls (runSimulator env sim dgc fuel ss ⟨g, []⟩).st.trace =
        writePointCalls (simLoop env sim dgc fuel ss 0 ⟨g, []⟩).st.trace := by
    unfold runSimulator
    cases hl : simLoop env sim dgc fuel ss 0 ⟨g, []⟩ with
    | panicked m s1 => exact ⟨rfl, rfl⟩
    | outOfFuel s1 => exact ⟨rfl, rfl⟩
    | exited s1 =>
      have hf := flushBuffer_counts env s1
      simp only
      cases hfl : flushBuffer env s1 with
      | ok s2 => rw [hfl] at hf; exact hf
      | panic m s2 => rw [hfl] at hf; exact hf
  rw [hrun.2, hloop, ← hrun.1, hk]
  exact count_mod_eq _ _ k hg

/-- C3 amended, at a concrete input: two groups, group id 1, four written yields and one
unwritten one. -/
theorem runSimulator_interleave_witness :
    (writePointCalls (runSimulator sampleEnv listSim (groups 1 2) 6
      [some cpuPoint, none, some idlePoint, some cpuPoint, some idleNicePoint]
      ⟨freshGen [], []⟩).st.trace).length = 2 :=
  runSimulator_interleave sampleEnv listSim (groups 1 2) 6
    [some cpuPoint, none, some idlePoint, some cpuPoint, some idleNicePoint]
    (freshGen []) 2 (by decide) (by decide) (by decide) rfl

/-! ## Rows in, rows out -/

/-- Recording a loop head keeps the generator consistent with its trace. -/
theorem Consistent.log_iter {env : Env} {fm : List (String × F64)} {s : St}
    (h : Consistent env fm s) (c : Nat) : Consistent env fm (s.log (.iter c)) := by
  simpa [Consistent, St.log, pendingStep] using h

/-- Recording a `Finished` call keeps the generator consistent with its trace. -/
theorem Consistent.log_finished {env : Env} {fm : List (String × F64)} {s : St}
    (h : Consistent env fm s) (b : Bool) : Consistent env fm (s.log (.finished b)) := by
  simpa [Consistent, St.log, pendingStep] using h

/-- Recording a `Next` call keeps the generator consistent with its trace. -/
theorem Consistent.log_next {env : Env} {fm : List (String × F64)} {s : St}
    (h : Consistent env fm s) (b : Bool) : Consistent env fm (s.log (.next b)) := by
  simpa [Consistent, St.log, pendingStep] using h

/-- A generator as `init` leaves it is consistent with the empty trace. -/
theorem consistent_fresh (env : Env) (fm : List (String × F64)) :
    Consistent env fm ⟨freshGen fm, []⟩ := by
  simp [Consistent, freshGen, pendingRows]

/-- A `writePoint` call that returns keeps the generator consistent with its trace. -/
theorem Consistent.writePoint {env : Env} {fm : List (String × F64)} {s s1 : St}
    (h : Consistent env fm s) (p : Point) (hw : writePoint env s p = .ok s1) :
    Consistent env fm s1 := by
  obtain ⟨hfm, hb, hbuf, _, hsum⟩ := h
  cases hd : encodePoint env fm RowBuilder.empty p with
  | error e =>
    rw [writePoint_error env s p e (by rw [hfm, hb]; exact hd)] at hw
    exact absurd hw (by simp)
  | ok data =>
    have henc : encBytes env fm p = data := by simp [encBytes, hd]
    rw [writePoint_ok env s p data (by rw [hfm, hb]; exact hd)] at hw
    split at hw
    · rw [flushBuffer_pos env _ (by simp [appended])] at hw
      split at hw
      · exact absurd hw (by simp)
      · injection hw with hw
        subst hw
        refine ⟨hfm, rfl, ?_, fun _ => rfl, ?_⟩
        · simp [flushed, appended, pendingStep]
        · simp only [flushed, appended, List.append_assoc, pushBodies_append,
            writePointCalls_append, List.flatMap_append, List.flatten_append]
          simp [henc, ← hsum]
    · injection hw with hw
      subst hw
      refine ⟨hfm, rfl, ?_, fun h0 => absurd h0 (by simp [appended]), ?_⟩
      · simp [appended, pendingStep, henc, ← hbuf]
      · simp only [appended, writePointCalls_append, List.flatMap_append, ← hsum]
        simp [henc]

/-- When the loop exits, the generator is consistent with the trace, and the last event of the
trace is the `Finished` call that returned true. -/
theorem simLoop_exited {σ : Type} (env : Env) (sim : Simulator σ) (dgc : DataGeneratorConfig)
    (fm : List (String × F64)) :
    ∀ (fuel : Nat) (ss : σ) (c : Nat) (s s1 : St), Consistent env fm s →
      simLoop env sim dgc fuel ss c s = .exited s1 →
      Consistent env fm s1 ∧ ∃ pre, s1.trace = pre ++ [.finished true] := by
  intro fuel
  induction fuel with
  | zero => intro ss c s s1 _ h; simp [simLoop] at h
  | succ n ih =>
    intro ss c s s1 hs h
    unfold simLoop at h
    simp only at h
    split at h
    · injection h with h
      subst h
      exact ⟨(hs.log_iter c).log_finished true, _, rfl⟩
    · split at h
      · exact ih _ _ _ _ (((hs.log_iter c).log_finished false).log_next false) h
      · rename_i ss1 point _
        have hs3 := ((hs.log_iter c).log_finished false).log_next true
        by_cases hg : c = dgc.InterleavedGroupID
        · simp only [hg, if_true] at h
          rw [← hg] at h
          cases hr : writePoint env
            (((s.log (.iter c)).log (.finished false)).log (.next true)) point with
          | panic m s2 => rw [hr] at h; simp at h
          | ok s2 =>
            rw [hr] at h
            simp only at h
            split at h
            · simp at h
            · exact ih _ _ _ _ (hs3.writePoint point hr) h
        · simp only [hg, if_false] at h
          split at h
          · simp at h
          · exact ih _ _ _ _ hs3 h

/-- C5: in a run from a freshly initialised generator, let `s1` be the state when the loop exits,
that is when `Finished()` has returned true. That call is then the last event so far, and `buf`
holds exactly the rows appended since the last PUT. If the count is zero, `runSimulator` returns
nil and records nothing more. If the count is not zero (it is then between 1 and 100),
`runSimulator` records after it exactly one compression and one PUT, whose uncompressed body is
that `buf`, and no simulator call, and it returns nil when that PUT reports no transport
error. -/
theorem runSimulator_terminal_flush {σ : Type} (env : Env) (sim : Simulator σ) (dgc : DataGeneratorConfig)
    (fuel : Nat) (ss : σ) (fm : List (String × F64)) (s1 : St)
    (hloop : simLoop env sim dgc fuel ss 0 ⟨freshGen fm, []⟩ = .exited s1) :
    (∃ pre, s1.trace = pre ++ [.finished true]) ∧
    s1.g.buf = pendingRows env fm s1.trace ∧
    (s1.g.batchedSize = 0 →
      runSimulator env sim dgc fuel ss ⟨freshGen fm, []⟩ = .returned none s1) ∧
    (1 ≤ s1.g.batchedSize →
      (runSimulator env sim dgc fuel ss ⟨freshGen fm, []⟩).st.trace = s1.trace ++
        [.gzipReset, .gzipWrite s1.g.buf, .gzipClose, .put s1.g.buf (env.gzip s1.g.buf)] ∧
      ((env.put (putCount s1.trace) (env.gzip s1.g.buf)).err = none →
        runSimulator env sim dgc fuel ss ⟨freshGen fm, []⟩ =
          .returned none (flushed env s1))) := by
  obtain ⟨hc, hlast⟩ :=
    simLoop_exited env sim dgc fm fuel ss 0 _ s1 (consistent_fresh env fm) hloop
  refine ⟨hlast, hc.2.2.1, ?_, ?_⟩
  · intro h0
    simp [runSimulator, hloop, flushBuffer_zero env s1 h0]
  · intro h1
    have hne : s1.g.batchedSize ≠ 0 := by omega
    simp only [runSimulator, hloop, flushBuffer_pos env s1 hne]
    cases hp : (env.put (putCount s1.trace) (env.gzip s1.g.buf)).err with
    | none => exact ⟨rfl, fun _ => rfl⟩
    | some e => exact ⟨rfl, fun h => absurd h (by simp)⟩

/-- C5, at a concrete input: one written yield, then the simulator is finished with one row in
the batch. -/
theorem runSimulator_terminal_flush_witness :
    (∃ pre, (simLoop sampleEnv listSim (groups 0 1) 2 [some cpuPoint] 0 ⟨freshGen [], []⟩).st.trace
      = pre ++ [.finished true]) ∧
    (simLoop sampleEnv listSim (groups 0 1) 2 [some cpuPoint] 0 ⟨freshGen [], []⟩).st.g.buf =
      pendingRows sampleEnv []
        (simLoop sampleEnv listSim (groups 0 1) 2 [some cpuPoint] 0 ⟨freshGen [], []⟩).st.trace ∧
    (runSimulator sampleEnv listSim (groups 0 1) 2 [some cpuPoint] ⟨freshGen [], []⟩).st.trace =
      (simLoop sampleEnv listSim (groups 0 1) 2 [some cpuPoint] 0 ⟨freshGen [], []⟩).st.trace ++
        [.gzipReset, .gzipWrite [99, 112, 117, 0, 0], .gzipClose,
          .put [99, 112, 117, 0, 0] [99, 112, 117, 0, 0]] :=
  have h := runSimulator_terminal_flush sampleEnv listSim (groups 0 1) 2 [some cpuPoint] []
    (simLoop sampleEnv listSim (groups 0 1) 2 [some cpuPoint] 0 ⟨freshGen [], []⟩).st rfl
  ⟨h.1, h.2.1, (h.2.2.2 (by decide)).1⟩

/-- C6: when a run from a freshly initialised generator returns, the uncompressed bodies of its
PUT requests, concatenated in order, are the encoded rows of the points passed to `writePoint`,
concatenated in order. -/
theorem runSimulator_pushes_all_rows {σ : Type} (env : Env) (sim : Simulator σ) (dgc : DataGeneratorConfig)
    (fuel : Nat) (ss : σ) (fm : List (String × F64)) (err : Option String) (s2 : St)
    (h : runSimulator env sim dgc fuel ss ⟨freshGen fm, []⟩ = .returned err s2) :
    (pushBodies s2.trace).flatten = (writePointCalls s2.trace).flatMap (encBytes env fm) := by
  unfold runSimulator at h
  cases hl : simLoop env sim dgc fuel ss 0 ⟨freshGen fm, []⟩ with
  | panicked m s1 => rw [hl] at h; simp at h
  | outOfFuel s1 => rw [hl] at h; simp at h
  | exited s1 =>
    rw [hl] at h
    simp only at h
    obtain ⟨⟨_, _, _, hz, hsum⟩, _⟩ :=
      simLoop_exited env sim dgc fm fuel ss 0 _ s1 (consistent_fresh env fm) hl
    by_cases h0 : s1.g.batchedSize = 0
    · rw [flushBuffer_zero env s1 h0] at h
      injection h with _ h
      subst h
      simpa [hz h0] using hsum
    · rw [flushBuffer_pos env s1 h0] at h
      cases hp : (env.put (putCount s1.trace) (env.gzip s1.g.buf)).err with
      | some e => rw [hp] at h; simp at h
      | none =>
        rw [hp] at h
        injection h with _ h
        subst h
        simpa [flushed] using hsum

/-- C6, at a concrete input: three written yields with one group. -/
theorem runSimulator_pushes_all_rows_witness :
    (pushBodies (runSimulator sampleEnv listSim (groups 0 1) 4
        [some cpuPoint, some idlePoint, some cpuPoint] ⟨freshGen [], []⟩).st.trace).flatten =
      (writePointCalls (runSimulator sampleEnv listSim (groups 0 1) 4
        [some cpuPoint, some idlePoint, some cpuPoint] ⟨freshGen [], []⟩).st.trace).flatMap
        (encBytes sampleEnv []) :=
  runSimulator_pushes_all_rows sampleEnv listSim (groups 0 1) 4
    [some cpuPoint, some idlePoint, some cpuPoint] [] none _ rfl

/-! ## Start-up: `init` and `Generate` -/

/-- What `init` returns, case by case. -/
theorem init_eq (g : DataGenerator) (gl : Globals) (config : GeneratorConfig) :
    g.init gl config =
      match config with
      | .nil => .error ErrNoConfig
      | .other => .error ErrInvalidDataConfig
      | .dataGenerator c =>
        if c.Scale = 0 then .error gl.ErrScaleIsZero
        else .ok ({ c with TimeStart := defaultTimeStart, TimeEnd := defaultTimeEnd },
          { g with
            fieldMapping :=
              if c.Use = "devops" then gl.DevOpsFieldMapping
              else if c.Use = "iot" then gl.IOTFieldMapping
              else g.fieldMapping
            builder := RowBuilder.empty, buf := [], gzipBuf := [] }) := by
  cases config <;> rfl

/-- C11: `init` returns an error exactly for a nil config (`ErrNoConfig`), a config of another
type (`ErrInvalidDataConfig`) and a `DataGeneratorConfig` with `Scale = 0`
(`common.ErrScaleIsZero`), and returns nil for every other config; when `init` returns an error,
`Generate` returns that error with the generator and the trace as they were (no simulator call,
no `writePoint`, no PUT), without having asked for a simulator, and with the caller's
configuration as it was; when `init` returns nil, `Generate` goes on to ask for a simulator. -/
theorem Generate_config_errors {σ : Type} (gl : Globals) (env : Env) (uc : Usecases σ)
    (fuel : Nat) (s : St) (config : GeneratorConfig) :
    (∀ e, s.g.init gl config = .error e ↔
      (config = .nil ∧ e = ErrNoConfig) ∨ (config = .other ∧ e = ErrInvalidDataConfig) ∨
      (∃ c, config = .dataGenerator c ∧ c.Scale = 0 ∧ e = gl.ErrScaleIsZero)) ∧
    (∀ c, config = .dataGenerator c → c.Scale ≠ 0 → ∃ r, s.g.init gl config = .ok r) ∧
    (∀ e, s.g.init gl config = .error e →
      (DataGenerator.Generate gl env uc fuel s config).run = .returned (some e) s ∧
      (DataGenerator.Generate gl env uc fuel s config).handed = none ∧
      (DataGenerator.Generate gl env uc fuel s config).config = config) ∧
    (∀ r, s.g.init gl config = .ok r →
      (DataGenerator.Generate gl env uc fuel s config).handed = some r.1) := by
  refine ⟨?_, ?_, ?_, ?_⟩
  · intro e
    rw [init_eq]
    cases config with
    | nil => simp [eq_comm]
    | other => simp [eq_comm]
    | dataGenerator c =>
      by_cases hs : c.Scale = 0
      · simp [hs, eq_comm]
      · simp [hs]
  · intro c hc hs
    subst hc
    rw [init_eq]
    simp [hs]
  · intro e he
    simp [DataGenerator.Generate, he]
  · intro r hr
    simp only [DataGenerator.Generate, hr]
    cases uc.newSimulator r.1 <;> rfl

/-- C11, at concrete inputs: a nil config, a config of another type and a zero scale. -/
theorem Generate_config_errors_witness :
    (DataGenerator.Generate sampleGlobals sampleEnv (replayUsecases [some cpuPoint]) 3
      ⟨freshGen [], []⟩ GeneratorConfig.nil).run =
        .returned (some ErrNoConfig) ⟨freshGen [], []⟩ ∧
    (DataGenerator.Generate sampleGlobals sampleEnv (replayUsecases [some cpuPoint]) 3
      ⟨freshGen [], []⟩ GeneratorConfig.other).run =
        .returned (some ErrInvalidDataConfig) ⟨freshGen [], []⟩ ∧
    (DataGenerator.Generate sampleGlobals sampleEnv (replayUsecases [some cpuPoint]) 3
      ⟨freshGen [], []⟩ (.dataGenerator (groups 0 1))).run =
        .returned (some sampleGlobals.ErrScaleIsZero) ⟨freshGen [], []⟩ :=
  ⟨((Generate_config_errors sampleGlobals sampleEnv (replayUsecases [some cpuPoint]) 3
      ⟨freshGen [], []⟩ GeneratorConfig.nil).2.2.1 _ rfl).1,
    ((Generate_config_errors sampleGlobals sampleEnv (replayUsecases [some cpuPoint]) 3
      ⟨freshGen [], []⟩ GeneratorConfig.other).2.2.1 _ rfl).1,
    ((Generate_config_errors sampleGlobals sampleEnv (replayUsecases [some cpuPoint]) 3
      ⟨freshGen [], []⟩ (.dataGenerator (groups 0 1))).2.2.1 _ rfl).1⟩

/-- C14, refuted as stated: for a configuration with the window 2020-01-01 to 2020-01-02, the
caller's configuration after `Generate` has the window 2023-12-13 to 2023-12-16, and that is the
window handed to the simulator. -/
theorem Generate_overwrites_time_window :
    (DataGenerator.Generate sampleGlobals sampleEnv (replayUsecases []) 1 ⟨freshGen [], []⟩
      (.dataGenerator windowConfig)).config =
      .dataGenerator { windowConfig with
        TimeStart := "2023-12-13T00:00:00Z", TimeEnd := "2023-12-16T00:00:00Z" } ∧
    (DataGenerator.Generate sampleGlobals sampleEnv (replayUsecases []) 1 ⟨freshGen [], []⟩
      (.dataGenerator windowConfig)).config ≠ .dataGenerator windowConfig ∧
    (DataGenerator.Generate sampleGlobals sampleEnv (replayUsecases []) 1 ⟨freshGen [], []⟩
      (.dataGenerator windowConfig)).handed ≠ some windowConfig := by
  refine ⟨rfl, ?_, ?_⟩ <;> decide

/-- C14, amended: for a `DataGeneratorConfig` with a non-zero scale, the caller's configuration
after `Generate` is the one supplied with `TimeStart` and `TimeEnd` overwritten by
`defaultTimeStart` and `defaultTimeEnd` and every other field unchanged, and this overwritten
value is the one handed to `GetSimulatorConfig`; a configuration that `init` rejects is left as
supplied. -/
theorem Generate_config_frame {σ : Type} (gl : Globals) (env : Env) (uc : Usecases σ)
    (fuel : Nat) (s : St) (c : DataGeneratorConfig) :
    (c.Scale ≠ 0 →
      (DataGenerator.Generate gl env uc fuel s (.dataGenerator c)).config =
        .dataGenerator { c with TimeStart := defaultTimeStart, TimeEnd := defaultTimeEnd } ∧
      (DataGenerator.Generate gl env uc fuel s (.dataGenerator c)).handed =
        some { c with TimeStart := defaultTimeStart, TimeEnd := defaultTimeEnd }) ∧
    (c.Scale = 0 →
      (DataGenerator.Generate gl env uc fuel s (.dataGenerator c)).config = .dataGenerator c ∧
      (DataGenerator.Generate gl env uc fuel s (.dataGenerator c)).handed = none) := by
  constructor
  · intro hs
    simp only [DataGenerator.Generate, init_eq, hs, if_false]
    cases uc.newSimulator { c with TimeStart := defaultTimeStart, TimeEnd := defaultTimeEnd }
      <;> exact ⟨rfl, rfl⟩
  · intro hs
    simp [DataGenerator.Generate, init_eq, hs]

/-- C14 amended, at a concrete input: the configuration of the test, whose window is empty. -/
theorem Generate_config_frame_witness :
    (DataGenerator.Generate sampleGlobals sampleEnv (replayUsecases []) 1 ⟨freshGen [], []⟩
      (.dataGenerator testConfig)).config =
        .dataGenerator { testConfig with
          TimeStart := defaultTimeStart, TimeEnd := defaultTimeEnd } ∧
    (DataGenerator.Generate sampleGlobals sampleEnv (replayUsecases []) 1 ⟨freshGen [], []⟩
      (.dataGenerator testConfig)).handed =
        some { testConfig with TimeStart := defaultTimeStart, TimeEnd := defaultTimeEnd } :=
  (Generate_config_frame sampleGlobals sampleEnv (replayUsecases []) 1 ⟨freshGen [], []⟩
    testConfig).1 (by decide)

/-! ## The field table loader -/

/-- The two-field rows of a list of rows, row by row. -/
theorem twoFieldRows_cons (row : String) (rows : List String) :
    twoFieldRows (row :: rows) =
      match Split row ',' with
      | [c0, c1] => (c0, c1) :: twoFieldRows rows
      | _ => twoFieldRows rows := by
  simp only [twoFieldRows, List.filterMap_cons]
  generalize Split row ',' = cols
  match cols with
  | [] => rfl
  | [_] => rfl
  | [_, _] => rfl
  | _ :: _ :: _ :: _ => rfl

/-- A pair is among the two-field rows exactly when some row splits into it. -/
theorem mem_twoFieldRows (rows : List String) (k c : String) :
    (k, c) ∈ twoFieldRows rows ↔ ∃ row ∈ rows, Split row ',' = [k, c] := by
  simp only [twoFieldRows, List.mem_filterMap]
  constructor
  · rintro ⟨row, hrow, h⟩
    refine ⟨row, hrow, ?_⟩
    split at h
    · rename_i c0 c1 heq
      simp only [Option.some.injEq, Prod.mk.injEq] at h
      rw [heq, h.1, h.2]
    · simp at h
  · rintro ⟨row, hrow, h⟩
    exact ⟨row, hrow, by simp [h]⟩

/-- When the loop of `mapping` returns, the map is the one it started from with one binding
put in front per two-field row, in row order, each carrying the parsed second field. -/
theorem mappingRows_ok (pf : String → Except String F64) :
    ∀ (rows : List String) (r m : List (String × F64)), mappingRows pf rows r = .ok m →
      ∃ vs, m = vs.reverse ++ r ∧ List.Forall₂ (ParsedAs pf) vs (twoFieldRows rows) := by
  intro rows
  induction rows with
  | nil =>
    intro r m h
    simp only [mappingRows, Except.ok.injEq] at h
    exact ⟨[], by simp [h], by simp [twoFieldRows]⟩
  | cons row rows ih =>
    intro r m h
    rw [twoFieldRows_cons]
    unfold mappingRows at h
    split at h
    · rename_i c0 c1 heq
      cases hp : pf c1 with
      | error e => rw [hp] at h; simp at h
      | ok val =>
        rw [hp] at h
        obtain ⟨vs, hm, hvs⟩ := ih _ _ h
        exact ⟨(c0, val) :: vs, by simp [hm], List.Forall₂.cons ⟨rfl, hp⟩ hvs⟩
    · exact ih _ _ h

/-- The loop of `mapping` panics exactly when some two-field row has a second field that does
not parse. -/
theorem mappingRows_error_iff (pf : String → Except String F64) :
    ∀ (rows : List String) (r : List (String × F64)),
      (∃ e, mappingRows pf rows r = .error e) ↔
        ∃ row ∈ rows, ∃ k c, Split row ',' = [k, c] ∧ ∃ e, pf c = .error e := by
  intro rows
  induction rows with
  | nil => intro r; simp [mappingRows]
  | cons row rows ih =>
    intro r
    unfold mappingRows
    split
    · rename_i c0 c1 heq
      cases hp : pf c1 with
      | error e =>
        simp only [Except.error.injEq, exists_eq', true_iff]
        exact ⟨row, List.mem_cons_self _ _, c0, c1, heq, e, hp⟩
      | ok val =>
        simp only
        rw [ih]
        constructor
        · rintro ⟨row1, hrow1, h⟩
          exact ⟨row1, List.mem_cons_of_mem _ hrow1, h⟩
        · rintro ⟨row1, hrow1, k, c, hs, e, he⟩
          rcases List.mem_cons.mp hrow1 with rfl | hmem
          · rw [heq] at hs
            simp only [List.cons.injEq, and_true] at hs
            rw [hs.2, he] at hp
            simp at hp
          · exact ⟨row1, hmem, k, c, hs, e, he⟩
    · rename_i hne
      rw [ih]
      constructor
      · rintro ⟨row1, hrow1, h⟩
        exact ⟨row1, List.mem_cons_of_mem _ hrow1, h⟩
      · rintro ⟨row1, hrow1, k, c, hs, e, he⟩
        rcases List.mem_cons.mp hrow1 with rfl | hmem
        · exact absurd hs (hne k c)
        · exact ⟨row1, hmem, k, c, hs, e, he⟩

/-- Rows that do not split into exactly two fields can be dropped without changing what the
loop of `mapping` does. -/
theorem mappingRows_filter (pf : String → Except String F64) :
    ∀ (rows : List String) (r : List (String × F64)),
      mappingRows pf (rows.filter (fun row => decide ((Split row ',').length = 2))) r =
        mappingRows pf rows r := by
  intro rows
  induction rows with
  | nil => intro r; rfl
  | cons row rows ih =>
    intro r
    by_cases hlen : (Split row ',').length = 2
    · rw [List.filter_cons_of_pos (by simpa using hlen)]
      unfold mappingRows
      split
      · cases pf _ <;> simp [ih]
      · exact ih r
    · rw [List.filter_cons_of_neg (by simpa using hlen)]
      conv_rhs => unfold mappingRows
      split
      · rename_i c0 c1 heq
        rw [heq] at hlen
        simp at hlen
      · exact ih r

/-- Bindings that agree with rows pairwise have the keys of the rows. -/
theorem forall₂_parsedAs_keys (pf : String → Except String F64) (vs : List (String × F64))
    (ps : List (String × String)) (h : List.Forall₂ (ParsedAs pf) vs ps) :
    vs.map Prod.fst = ps.map Prod.fst := by
  induction h with
  | nil => rfl
  | cons hd _ ih => simp [hd.1, ih]

/-- Bindings that agree with rows pairwise look up to the parsed second field of the row that
the key looks up to. -/
theorem forall₂_parsedAs_lookup (pf : String → Except String F64) (vs : List (String × F64))
    (ps : List (String × String)) (h : List.Forall₂ (ParsedAs pf) vs ps) (k : String) (v : F64) :
    vs.lookup k = some v ↔ ∃ c, ps.lookup k = some c ∧ pf c = .ok v := by
  induction h with
  | nil => simp
  | @cons kv kc vs1 ps1 hd _ ih =>
    obtain ⟨k1, v1⟩ := kv
    obtain ⟨k2, c2⟩ := kc
    obtain ⟨hk, hv⟩ := hd
    simp only at hk hv
    subst hk
    simp only [List.lookup_cons]
    cases hkey : k == k1 with
    | true => simp [hv]
    | false => simpa using ih

/-- C12: when `mapping` succeeds, the keys of the map are exactly the first fields of the lines
(the text split on the line feed) that split on the comma into exactly two fields; a key maps to
what the second field of the last such line with that key parses to; and the lines that do not
split into exactly two fields (an empty line among them) can be dropped without changing the
result. -/
theorem mapping_ok_spec (pf : String → Except String F64) (data : String)
    (m : List (String × F64)) (h : mapping pf data = .ok m) :
    (∀ k, k ∈ m.map Prod.fst ↔ ∃ row ∈ Split data '\n', ∃ c, Split row ',' = [k, c]) ∧
    (∀ k v, m.lookup k = some v ↔
      ∃ c, (twoFieldRows (Split data '\n')).reverse.lookup k = some c ∧ pf c = .ok v) ∧
    mappingRows pf
      ((Split data '\n').filter (fun row => decide ((Split row ',').length = 2))) [] = .ok m ∧
    (Split "" ',').length = 1 := by
  obtain ⟨vs, hm, hvs⟩ := mappingRows_ok pf _ _ _ h
  rw [List.append_nil] at hm
  subst hm
  refine ⟨?_, ?_, ?_, by decide⟩
  · intro k
    rw [List.map_reverse, List.mem_reverse, forall₂_parsedAs_keys pf _ _ hvs]
    simp only [List.mem_map, Prod.exists, exists_and_right, exists_eq_right]
    constructor
    · rintro ⟨c, hc⟩
      obtain ⟨row, hrow, hs⟩ := (mem_twoFieldRows _ k c).mp hc
      exact ⟨row, hrow, c, hs⟩
    · rintro ⟨row, hrow, c, hs⟩
      exact ⟨c, (mem_twoFieldRows _ k c).mpr ⟨row, hrow, hs⟩⟩
  · intro k v
    exact forall₂_parsedAs_lookup pf _ _ (List.rel_reverse hvs) k v
  · rw [mappingRows_filter]
    exact h

/-- C12, at a concrete input: two lines for the same key, an empty line, a line with three
fields and a line with one. -/
theorem mapping_ok_spec_witness :
    (∀ k, k ∈ [("usage_user", f12_5), ("usage_user", F64.zero)].map Prod.fst ↔
      ∃ row ∈ Split "usage_user,0\n\nusage_idle,12.5,3\nusage_user,12.5\nnoval" '\n',
        ∃ c, Split row ',' = [k, c]) ∧
    (∀ k v, [("usage_user", f12_5), ("usage_user", F64.zero)].lookup k = some v ↔
      ∃ c, (twoFieldRows
        (Split "usage_user,0\n\nusage_idle,12.5,3\nusage_user,12.5\nnoval" '\n')).reverse.lookup k
          = some c ∧ sampleParseFloat c = .ok v) ∧
    mappingRows sampleParseFloat
      ((Split "usage_user,0\n\nusage_idle,12.5,3\nusage_user,12.5\nnoval" '\n').filter
        (fun row => decide ((Split row ',').length = 2))) [] =
      .ok [("usage_user", f12_5), ("usage_user", F64.zero)] ∧
    (Split "" ',').length = 1 :=
  mapping_ok_spec sampleParseFloat "usage_user,0\n\nusage_idle,12.5,3\nusage_user,12.5\nnoval"
    [("usage_user", f12_5), ("usage_user", F64.zero)] rfl

/-- C13: `mapping` panics if and only if some line with exactly two comma-separated fields has
a second field that does not parse; lines with another number of fields can be dropped without
changing what `mapping` does, whatever they contain. -/
theorem mapping_panics_iff (pf : String → Except String F64) (data : String) :
    ((∃ e, mapping pf data = .error e) ↔
      ∃ row ∈ Split data '\n', ∃ k c, Split row ',' = [k, c] ∧ ∃ e, pf c = .error e) ∧
    mapping pf data = mappingRows pf
      ((Split data '\n').filter (fun row => decide ((Split row ',').length = 2))) [] :=
  ⟨mappingRows_error_iff pf _ _, (mappingRows_filter pf _ _).symm⟩

/-! ## The cursor at every loop head -/

/-- The cursor check of a trace, event by event. -/
theorem cursorsFrom_cons (N w : Nat) (e : Event) (t : List Event) :
    cursorsFrom N w (e :: t) =
      ((match e with
        | .iter c => c = w % N
        | _ => True) ∧
      cursorsFrom N (w + (match e with
        | .next true => 1
        | _ => 0)) t) := rfl

/-- The cursor check of a trace in two parts. -/
theorem cursorsFrom_append (N : Nat) (t u : List Event) :
    ∀ w, cursorsFrom N w (t ++ u) ↔
      cursorsFrom N w t ∧ cursorsFrom N (w + writtenCount t) u := by
  induction t with
  | nil => intro w; simp [cursorsFrom]
  | cons e t ih =>
    intro w
    rw [List.cons_append, cursorsFrom_cons, cursorsFrom_cons, ih, writtenCount_cons, and_assoc,
      Nat.add_assoc w, Nat.add_comm _ (writtenCount t)]

/-- A loop head deep in a checked trace shows the count of written yields before it, modulo
`N`. -/
theorem cursorsFrom_iter (N : Nat) (pre post : List Event) (c : Nat)
    (h : cursorsFrom N 0 (pre ++ Event.iter c :: post)) : c = writtenCount pre % N := by
  have h2 := ((cursorsFrom_append N pre _ 0).mp h).2
  simp only [cursorsFrom, Nat.zero_add] at h2
  exact h2.1

/-- Recording an event keeps the cursor check when the event, if it is a loop head, shows the
right cursor. -/
theorem cursorsFrom_log (N : Nat) (s : St) (e : Event) (h : cursorsFrom N 0 s.trace)
    (he : match e with
      | .iter c => c = writtenCount s.trace % N
      | _ => True) :
    cursorsFrom N 0 (s.log e).trace := by
  simp only [St.log, cursorsFrom_append, h, true_and, Nat.zero_add, cursorsFrom, and_true]
  exact he

/-- A `writePoint` call keeps the cursor check: it records no loop head and no `Next`. -/
theorem writePoint_cursors (N : Nat) (env : Env) (s : St) (p : Point)
    (h : cursorsFrom N 0 s.trace) : cursorsFrom N 0 (writePoint env s p).st.trace := by
  obtain ⟨es, ht, hes⟩ := writePoint_trace env s p
  rw [ht, cursorsFrom_append]
  refine ⟨h, ?_⟩
  rcases hes with rfl | ⟨d, rfl⟩ <;> simp [cursorsFrom]

/-- A `flushBuffer` call keeps the cursor check. -/
theorem flushBuffer_cursors (N : Nat) (env : Env) (s : St)
    (h : cursorsFrom N 0 s.trace) : cursorsFrom N 0 (flushBuffer env s).st.trace := by
  rw [flushBuffer_st]
  split
  · exact h
  · simp only [flushed, cursorsFrom_append, h, true_and]
    simp [cursorsFrom]

/-- The loop keeps the cursor check, however it ends. -/
theorem simLoop_cursors {σ : Type} (env : Env) (sim : Simulator σ) (dgc : DataGeneratorConfig)
    (hN : 1 ≤ dgc.InterleavedNumGroups) (hN64 : dgc.InterleavedNumGroups < 2 ^ 64) :
    ∀ (fuel : Nat) (ss : σ) (c : Nat) (s : St),
      cursorsFrom dgc.InterleavedNumGroups 0 s.trace →
      c = writtenCount s.trace % dgc.InterleavedNumGroups →
      cursorsFrom dgc.InterleavedNumGroups 0 (simLoop env sim dgc fuel ss c s).st.trace := by
  intro fuel
  induction fuel with
  | zero => intro ss c s h _; exact h
  | succ n ih =>
    intro ss c s h hc
    have h1 := cursorsFrom_log _ s (.iter c) h hc
    unfold simLoop
    simp only
    split
    · exact cursorsFrom_log _ _ (.finished true) h1 trivial
    · have h2 := cursorsFrom_log _ _ (.finished false) h1 trivial
      split
      · exact ih _ _ _ (cursorsFrom_log _ _ (.next false) h2 trivial) (by simpa [St.log] using hc)
      · rename_i ss1 point _
        have h3 := cursorsFrom_log _ _ (.next true) h2 trivial
        have hcn : c < dgc.InterleavedNumGroups := by
          rw [hc]; exact Nat.mod_lt _ (by omega)
        have hnext : ((c + 1) % 2 ^ 64) % dgc.InterleavedNumGroups =
            (writtenCount s.trace + 1) % dgc.InterleavedNumGroups := by
          rw [Nat.mod_eq_of_lt (by omega : c + 1 < 2 ^ 64), hc, Nat.mod_add_mod]
        by_cases hg : c = dgc.InterleavedGroupID
        · simp only [hg, if_true]
          rw [← hg]
          have hw := writePoint_cursors dgc.InterleavedNumGroups env _ point h3
          have hcnt := (writePoint_counts env
            (((s.log (.iter c)).log (.finished false)).log (.next true)) point).1
          cases hr : writePoint env
            (((s.log (.iter c)).log (.finished false)).log (.next true)) point with
          | panic m s1 => rw [hr] at hw; exact hw
          | ok s1 =>
            rw [hr] at hw hcnt
            simp only
            rw [if_neg (by omega)]
            refine ih _ _ _ hw ?_
            rw [hnext]
            simp only [Res.st] at hcnt
            rw [hcnt]
            simp [St.log]
        · simp only [hg, if_false]
          rw [if_neg (by omega)]
          refine ih _ _ _ h3 ?_
          rw [hnext]
          simp [St.log]

/-- A run of `runSimulator` from an empty trace passes the cursor check, however it ends. -/
theorem runSimulator_cursors {σ : Type} (env : Env) (sim : Simulator σ)
    (dgc : DataGeneratorConfig) (fuel : Nat) (ss : σ) (g : DataGenerator)
    (hN : 1 ≤ dgc.InterleavedNumGroups) (hN64 : dgc.InterleavedNumGroups < 2 ^ 64) :
    cursorsFrom dgc.InterleavedNumGroups 0
      (runSimulator env sim dgc fuel ss ⟨g, []⟩).st.trace := by
  have hloop := simLoop_cursors env sim dgc hN hN64 fuel ss 0 ⟨g, []⟩
    (by simp [cursorsFrom]) (by simp)
  unfold runSimulator
  cases hl : simLoop env sim dgc fuel ss 0 ⟨g, []⟩ with
  | panicked m s1 => rw [hl] at hloop; exact hloop
  | outOfFuel s1 => rw [hl] at hloop; exact hloop
  | exited s1 =>
    rw [hl] at hloop
    have hf := flushBuffer_cursors dgc.InterleavedNumGroups env s1 hloop
    simp only
    cases hfl : flushBuffer env s1 with
    | ok s2 => rw [hfl] at hf; exact hf
    | panic m s2 => rw [hfl] at hf; exact hf

/-- C16, refuted as stated: with two groups, after one call of `Next` that reports nothing
written the next loop head shows the cursor 0, not `1 % 2`. -/
theorem runSimulator_cursor_stays_on_unwritten_yield :
    (runSimulator sampleEnv listSim (groups 0 2) 3 [none] ⟨freshGen [], []⟩).st.trace =
      [.iter 0, .finished false, .next false] ++ .iter 0 :: [.finished true] ∧
    nextCount [.iter 0, .finished false, .next false] = 1 ∧
    0 ≠ 1 % 2 := by
  refine ⟨rfl, rfl, by decide⟩

/-- C16, amended: for `N ≥ 1` groups, at every loop head of a run of `runSimulator` the cursor
equals the number of earlier `Next` calls that reported a written point, modulo `N`; so the
cursor moves by one modulo `N` on a written yield and stays on a yield that reports nothing
written. -/
theorem runSimulator_cursor_counts_written {σ : Type} (env : Env) (sim : Simulator σ)
    (dgc : DataGeneratorConfig) (fuel : Nat) (ss : σ) (g : DataGenerator)
    (pre post : List Event) (c : Nat)
    (hN : 1 ≤ dgc.InterleavedNumGroups) (hN64 : dgc.InterleavedNumGroups < 2 ^ 64)
    (h : (runSimulator env sim dgc fuel ss ⟨g, []⟩).st.trace = pre ++ Event.iter c :: post) :
    c = writtenCount pre % dgc.InterleavedNumGroups := by
  have hc := runSimulator_cursors env sim dgc fuel ss g hN hN64
  rw [h] at hc
  exact cursorsFrom_iter _ pre post c hc

/-- C16 amended, at a concrete input: two groups, a written yield, an unwritten one and a
written one; the loop head after the three calls of `Next` shows the cursor `2 % 2`. -/
theorem runSimulator_cursor_counts_written_witness :
    0 = writtenCount
      [.iter 0, .finished false, .next true, .writePoint cpuPoint, .iter 1, .finished false,
        .next false, .iter 1, .finished false, .next true] % (groups 0 2).InterleavedNumGroups :=
  runSimulator_cursor_counts_written sampleEnv listSim (groups 0 2) 5
    [some cpuPoint, none, some idlePoint] (freshGen [])
    [.iter 0, .finished false, .next true, .writePoint cpuPoint, .iter 1, .finished false,
      .next false, .iter 1, .finished false, .next true]
    [.finished true, .gzipReset, .gzipWrite [99, 112, 117, 0, 0], .gzipClose,
      .put [99, 112, 117, 0, 0] [99, 112, 117, 0, 0]]
    0 (by decide) (by decide) rfl

/-! ## Runs whose collaborators never fail -/

/-- With collaborators that never fail, `flushBuffer` returns. -/
theorem flushBuffer_neverFails (env : Env) (h : env.NeverFails) (s : St) :
    ∃ s1, flushBuffer env s = .ok s1 := by
  by_cases h0 : s.g.batchedSize = 0
  · exact ⟨s, flushBuffer_zero env s h0⟩
  · refine ⟨flushed env s, ?_⟩
    rw [flushBuffer_pos env s h0, h.2]

/-- With collaborators that never fail, `writePoint` returns. -/
theorem writePoint_neverFails (env : Env) (h : env.NeverFails) (s : St) (p : Point) :
    ∃ s1, writePoint env s p = .ok s1 := by
  cases hd : encodePoint env s.g.fieldMapping s.g.builder p with
  | error e =>
    exfalso
    rw [encodePoint, buildRow_eq] at hd
    simp only at hd
    obtain ⟨data, hdata⟩ := h.1
      { metricName := p.measurementName
        timestamp := p.timestampMilli
        tags := s.g.builder.tags
        fields := s.g.builder.fields ++
          (p.fieldKeys.drop 1).map
            (fun k => ⟨k, SimpleFieldType.last, lookupField s.g.fieldMapping k⟩) }
    rw [hdata] at hd
    cases hd
  | ok data =>
    rw [writePoint_ok env s p data hd]
    split
    · exact flushBuffer_neverFails env h _
    · exact ⟨_, rfl⟩

/-- With collaborators that never fail and at least one group, the loop does not panic, and it
exits when the simulator reports finished within the fuel. -/
theorem simLoop_neverFails {σ : Type} (env : Env) (sim : Simulator σ) (dgc : DataGeneratorConfig)
    (h : env.NeverFails) (hN : 1 ≤ dgc.InterleavedNumGroups) :
    ∀ (fuel : Nat) (ss : σ) (c : Nat) (s : St),
      (simLoop env sim dgc fuel ss c s).isPanicked = false ∧
      (finishesWithin sim fuel ss = true → ∃ s1, simLoop env sim dgc fuel ss c s = .exited s1) := by
  intro fuel
  induction fuel with
  | zero => intro ss c s; exact ⟨rfl, by simp [finishesWithin]⟩
  | succ n ih =>
    intro ss c s
    unfold simLoop finishesWithin
    simp only
    by_cases hf : sim.finished ss = true
    · rw [if_pos hf]
      exact ⟨rfl, fun _ => ⟨_, rfl⟩⟩
    · rw [if_neg hf]
      have hfb : sim.finished ss = false := by simpa using hf
      rw [hfb, Bool.false_or]
      cases hnx : sim.next ss with
      | mk ss1 y =>
        cases y with
        | none => exact ih _ _ _
        | some point =>
          simp only
          by_cases hg : c = dgc.InterleavedGroupID
          · rw [if_pos hg]
            obtain ⟨s1, hw⟩ := writePoint_neverFails env h
              (((s.log (.iter c)).log (.finished false)).log (.next true)) point
            rw [hw]
            simp only
            rw [if_neg (by omega)]
            exact ih _ _ _
          · rw [if_neg hg]
            simp only
            rw [if_neg (by omega)]
            exact ih _ _ _

/-- Whenever `runSimulator` returns, it returns nil. -/
theorem runSimulator_returned_nil {σ : Type} (env : Env) (sim : Simulator σ)
    (dgc : DataGeneratorConfig) (fuel : Nat) (ss : σ) (s : St) (err : Option String) (s2 : St)
    (h : runSimulator env sim dgc fuel ss s = .returned err s2) : err = none := by
  unfold runSimulator at h
  cases hl : simLoop env sim dgc fuel ss 0 s with
  | panicked m s1 => rw [hl] at h; simp at h
  | outOfFuel s1 => rw [hl] at h; simp at h
  | exited s1 =>
    rw [hl] at h
    simp only at h
    cases hfl : flushBuffer env s1 with
    | panic m s3 => rw [hfl] at h; simp at h
    | ok s3 =>
      rw [hfl] at h
      injection h with h1 _
      exact h1.symm

/-- With collaborators that never fail and at least one group, `runSimulator` does not panic,
and it returns nil when the simulator reports finished within the fuel. -/
theorem runSimulator_neverFails {σ : Type} (env : Env) (sim : Simulator σ)
    (dgc : DataGeneratorConfig) (h : env.NeverFails) (hN : 1 ≤ dgc.InterleavedNumGroups)
    (fuel : Nat) (ss : σ) (s : St) :
    (runSimulator env sim dgc fuel ss s).isPanicked = false ∧
    (finishesWithin sim fuel ss = true →
      ∃ s2, runSimulator env sim dgc fuel ss s = .returned none s2) := by
  obtain ⟨hnp, hex⟩ := simLoop_neverFails env sim dgc h hN fuel ss 0 s
  unfold runSimulator
  cases hl : simLoop env sim dgc fuel ss 0 s with
  | panicked m s1 => rw [hl] at hnp; simp [LoopResult.isPanicked] at hnp
  | outOfFuel s1 =>
    refine ⟨rfl, fun hfin => ?_⟩
    obtain ⟨s1, hs1⟩ := hex hfin
    rw [hl] at hs1
    cases hs1
  | exited s1 =>
    obtain ⟨s2, hs2⟩ := flushBuffer_neverFails env h s1
    simp only [hs2]
    exact ⟨rfl, fun _ => ⟨s2, rfl⟩⟩

/-- C15: for a `DataGeneratorConfig` with `Scale ≠ 0` whose simulator is obtained without
error, every return of `Generate` returns nil (the only `return` of `runSimulator` is
`return nil`); and with at least one group and collaborators that never fail, `Generate` does
return nil once the simulator reports finished, for every simulator and every sequence of
yields. -/
theorem Generate_returns_nil {σ : Type} (gl : Globals) (env : Env) (uc : Usecases σ)
    (fuel : Nat) (s : St) (c : DataGeneratorConfig) (ss : σ)
    (hs : c.Scale ≠ 0)
    (hsim : uc.newSimulator
      { c with TimeStart := defaultTimeStart, TimeEnd := defaultTimeEnd } = .ok ss) :
    (∀ err s2, (DataGenerator.Generate gl env uc fuel s (.dataGenerator c)).run =
      .returned err s2 → err = none) ∧
    (1 ≤ c.InterleavedNumGroups → env.NeverFails → finishesWithin uc.sim fuel ss = true →
      ∃ s2, (DataGenerator.Generate gl env uc fuel s (.dataGenerator c)).run =
        .returned none s2) := by
  simp only [DataGenerator.Generate, init_eq, hs, if_false, hsim]
  constructor
  · intro err s2 h
    exact runSimulator_returned_nil env uc.sim _ fuel ss _ err s2 h
  · intro hN hnf hfin
    exact (runSimulator_neverFails env uc.sim
      { c with TimeStart := defaultTimeStart, TimeEnd := defaultTimeEnd } hnf hN fuel ss _).2 hfin

/-- The sample collaborators never fail. -/
theorem sampleEnv_neverFails : sampleEnv.NeverFails :=
  ⟨fun _ => ⟨_, rfl⟩, fun _ _ => rfl⟩

/-- C15, at a concrete input: the configuration of `TestDataGenerator_Generate` with a simulator
of two yields. -/
theorem Generate_returns_nil_witness :
    ∃ s2, (DataGenerator.Generate sampleGlobals sampleEnv (replayUsecases [some cpuPoint, none])
      5 ⟨freshGen [], []⟩ (.dataGenerator testConfig)).run = .returned none s2 :=
  (Generate_returns_nil sampleGlobals sampleEnv (replayUsecases [some cpuPoint, none]) 5
    ⟨freshGen [], []⟩ testConfig [some cpuPoint, none] (by decide) rfl).2
    (by decide) sampleEnv_neverFails rfl

/-- C19: for `N ≥ 1` groups (`N` a `uint`), at every loop head of a run of `runSimulator` the
cursor is below `N`, and with collaborators that never fail the run does not panic, so the
modulo never divides by zero. The code does not check `N ≥ 1`: `init` accepts a configuration
with `InterleavedNumGroups = 0`, and `runSimulator` then panics with a division by zero at the
first written yield. -/
theorem runSimulator_cursor_in_range {σ : Type} (env : Env) (sim : Simulator σ)
    (dgc : DataGeneratorConfig) (fuel : Nat) (ss : σ) (g : DataGenerator)
    (hN : 1 ≤ dgc.InterleavedNumGroups) (hN64 : dgc.InterleavedNumGroups < 2 ^ 64) :
    (∀ pre c post,
      (runSimulator env sim dgc fuel ss ⟨g, []⟩).st.trace = pre ++ Event.iter c :: post →
      c < dgc.InterleavedNumGroups) ∧
    (env.NeverFails → (runSimulator env sim dgc fuel ss ⟨g, []⟩).isPanicked = false) ∧
    (∀ (gl : Globals) (c : DataGeneratorConfig), c.Scale ≠ 0 →
      ∃ r, g.init gl (.dataGenerator { c with InterleavedNumGroups := 0 }) = .ok r) ∧
    (∃ s1, runSimulator sampleEnv listSim (groups 0 0) 2 [some cpuPoint] ⟨freshGen [], []⟩ =
      .panicked "integer divide by zero" s1) := by
  refine ⟨?_, ?_, ?_, _, rfl⟩
  · intro pre c post h
    have hc := runSimulator_cursors env sim dgc fuel ss g hN hN64
    rw [h] at hc
    rw [cursorsFrom_iter _ pre post c hc]
    exact Nat.mod_lt _ (by omega)
  · intro hnf
    exact (runSimulator_neverFails env sim dgc hnf hN fuel ss _).1
  · intro gl c hs
    rw [init_eq]
    simp [hs]

/-- C19, at a concrete input: two groups; the loop head after a written yield shows the
cursor 1. -/
theorem runSimulator_cursor_in_range_witness :
    1 < (groups 0 2).InterleavedNumGroups :=
  (runSimulator_cursor_in_range sampleEnv listSim (groups 0 2) 5
    [some cpuPoint, none, some idlePoint] (freshGen []) (by decide) (by decide)).1
    [.iter 0, .finished false, .next true, .writePoint cpuPoint] 1
    [.finished false, .next false, .iter 1, .finished false, .next true, .iter 0,
      .finished true, .gzipReset, .gzipWrite [99, 112, 117, 0, 0], .gzipClose,
      .put [99, 112, 117, 0, 0] [99, 112, 117, 0, 0]]
    rfl

/-! ## Which yields are written -/

/-- With one group and group id 0, every written yield is attributed. -/
theorem attributedFrom_one (ys : List (Option Point)) :
    ∀ j, attributedFrom 1 0 j ys = ys.filterMap id := by
  induction ys with
  | nil => intro j; rfl
  | cons y ys ih =>
    intro j
    cases y with
    | none => simp [attributedFrom, ih]
    | some p => simp [attributedFrom, ih, Nat.mod_one]

/-- With a group id that is not below the group count, no yield is attributed. -/
theorem attributedFrom_out_of_range (N g : Nat) (hN : 1 ≤ N) (hg : N ≤ g)
    (ys : List (Option Point)) : ∀ j, attributedFrom N g j ys = [] := by
  induction ys with
  | nil => intro j; rfl
  | cons y ys ih =>
    intro j
    cases y with
    | none => simp [attributedFrom, ih]
    | some p =>
      have hlt : j % N < N := Nat.mod_lt _ (by omega)
      have hne : j % N ≠ g := by omega
      simp [attributedFrom, ih, hne]

/-- From cursor `j % N`, the loop passes to `writePoint` an initial part of the yields that the
specification attributes to the group, counting written yields from `j`, and all of them when
it does not panic. -/
theorem simLoop_attribution {σ : Type} (env : Env) (sim : Simulator σ)
    (dgc : DataGeneratorConfig)
    (hN : 1 ≤ dgc.InterleavedNumGroups) (hN64 : dgc.InterleavedNumGroups < 2 ^ 64) :
    ∀ (fuel : Nat) (ss : σ) (j : Nat) (s : St),
      ∃ l, writePointCalls
          (simLoop env sim dgc fuel ss (j % dgc.InterleavedNumGroups) s).st.trace =
          writePointCalls s.trace ++ l ∧
        l <+: attributedFrom dgc.InterleavedNumGroups dgc.InterleavedGroupID j
          (yields sim fuel ss) ∧
        ((simLoop env sim dgc fuel ss (j % dgc.InterleavedNumGroups) s).isPanicked = false →
          l = attributedFrom dgc.InterleavedNumGroups dgc.InterleavedGroupID j
            (yields sim fuel ss)) := by
  intro fuel
  induction fuel with
  | zero =>
    intro ss j s
    exact ⟨[], by simp [simLoop, LoopResult.st], by simp [yields, attributedFrom],
      fun _ => by simp [yields, attributedFrom]⟩
  | succ n ih =>
    intro ss j s
    unfold simLoop yields
    simp only
    by_cases hf : sim.finished ss = true
    · rw [if_pos hf, if_pos hf]
      exact ⟨[], by simp [LoopResult.st, St.log], by simp [attributedFrom],
        fun _ => by simp [attributedFrom]⟩
    · rw [if_neg hf, if_neg hf]
      cases hnx : sim.next ss with
      | mk ss1 y =>
        cases y with
        | none =>
          simp only [attributedFrom]
          obtain ⟨l, h1, h2, h3⟩ := ih ss1 j
            (((s.log (.iter (j % dgc.InterleavedNumGroups))).log (.finished false)).log
              (.next false))
          exact ⟨l, by simpa [St.log] using h1, h2, h3⟩
        | some point =>
          simp only
          have hcn : j % dgc.InterleavedNumGroups < dgc.InterleavedNumGroups :=
            Nat.mod_lt _ (by omega)
          have hnext : ((j % dgc.InterleavedNumGroups + 1) % 2 ^ 64) % dgc.InterleavedNumGroups =
              (j + 1) % dgc.InterleavedNumGroups := by
            rw [Nat.mod_eq_of_lt (by omega : j % dgc.InterleavedNumGroups + 1 < 2 ^ 64),
              Nat.mod_add_mod]
          by_cases hg : j % dgc.InterleavedNumGroups = dgc.InterleavedGroupID
          · rw [if_pos hg]
            have hcnt := (writePoint_counts env
              (((s.log (.iter (j % dgc.InterleavedNumGroups))).log (.finished false)).log
                (.next true)) point).2
            cases hr : writePoint env
              (((s.log (.iter (j % dgc.InterleavedNumGroups))).log (.finished false)).log
                (.next true)) point with
            | panic m s1 =>
              rw [hr] at hcnt
              simp only [Res.st] at hcnt
              refine ⟨[point], ?_, ?_, ?_⟩
              · simp [LoopResult.st, hcnt, St.log]
              · simp [attributedFrom, hg]
              · intro h
                simp [LoopResult.isPanicked] at h
            | ok s1 =>
              rw [hr] at hcnt
              simp only [Res.st] at hcnt
              simp only
              rw [if_neg (by omega), hnext]
              obtain ⟨l, h1, h2, h3⟩ := ih ss1 (j + 1) s1
              refine ⟨point :: l, ?_, ?_, ?_⟩
              · rw [h1, hcnt]
                simp [St.log]
              · simp only [attributedFrom, hg, if_true]
                exact List.cons_prefix_cons.mpr ⟨rfl, h2⟩
              · intro h
                simp only [attributedFrom, hg, if_true]
                rw [h3 h]
          · rw [if_neg hg]
            simp only
            rw [if_neg (by omega), hnext]
            obtain ⟨l, h1, h2, h3⟩ := ih ss1 (j + 1)
              (((s.log (.iter (j % dgc.InterleavedNumGroups))).log (.finished false)).log
                (.next true))
            refine ⟨l, by simpa [St.log] using h1, ?_, ?_⟩
            · simpa [attributedFrom, hg] using h2
            · intro h
              simpa [attributedFrom, hg] using h3 h

/-- A run passes to `writePoint` what its loop passes, and its loop has not panicked when the
run has not. -/
theorem runSimulator_loop {σ : Type} (env : Env) (sim : Simulator σ)
    (dgc : DataGeneratorConfig) (fuel : Nat) (ss : σ) (s : St) :
    writePointCalls (runSimulator env sim dgc fuel ss s).st.trace =
      writePointCalls (simLoop env sim dgc fuel ss 0 s).st.trace ∧
    ((runSimulator env sim dgc fuel ss s).isPanicked = false →
      (simLoop env sim dgc fuel ss 0 s).isPanicked = false) := by
  unfold runSimulator
  cases hl : simLoop env sim dgc fuel ss 0 s with
  | panicked m s1 => exact ⟨rfl, fun h => by simp [RunResult.isPanicked] at h⟩
  | outOfFuel s1 => exact ⟨rfl, fun _ => rfl⟩
  | exited s1 =>
    have hf := (flushBuffer_counts env s1).2
    simp only
    cases hfl : flushBuffer env s1 with
    | ok s2 => rw [hfl] at hf; exact ⟨hf, fun _ => rfl⟩
    | panic m s2 => rw [hfl] at hf; exact ⟨hf, fun _ => rfl⟩

/-- C17: for `N ≥ 1` groups (`N` a `uint`) and every group id `g`, the points a run of
`runSimulator` passes to `writePoint` are, in order, the written yields whose index `j` among
the written yields (from 0) has `j mod N = g`: all of them when the run does not panic, an
initial part of them when it does. A yield that is not written is never passed. With `N = 1`,
`g = 0` these are all written yields; with `g ≥ N` there are none. -/
theorem runSimulator_attribution {σ : Type} (env : Env) (sim : Simulator σ)
    (dgc : DataGeneratorConfig) (fuel : Nat) (ss : σ) (g : DataGenerator)
    (hN : 1 ≤ dgc.InterleavedNumGroups) (hN64 : dgc.InterleavedNumGroups < 2 ^ 64) :
    writePointCalls (runSimulator env sim dgc fuel ss ⟨g, []⟩).st.trace <+:
      attributedFrom dgc.InterleavedNumGroups dgc.InterleavedGroupID 0 (yields sim fuel ss) ∧
    ((runSimulator env sim dgc fuel ss ⟨g, []⟩).isPanicked = false →
      writePointCalls (runSimulator env sim dgc fuel ss ⟨g, []⟩).st.trace =
        attributedFrom dgc.InterleavedNumGroups dgc.InterleavedGroupID 0
          (yields sim fuel ss)) ∧
    attributedFrom 1 0 0 (yields sim fuel ss) = (yields sim fuel ss).filterMap id ∧
    (dgc.InterleavedNumGroups ≤ dgc.InterleavedGroupID →
      attributedFrom dgc.InterleavedNumGroups dgc.InterleavedGroupID 0
        (yields sim fuel ss) = []) := by
  obtain ⟨hcalls, hpanic⟩ := runSimulator_loop env sim dgc fuel ss ⟨g, []⟩
  obtain ⟨l, h1, h2, h3⟩ := simLoop_attribution env sim dgc hN hN64 fuel ss 0 ⟨g, []⟩
  rw [Nat.zero_mod] at h1 h3
  simp only [writePointCalls_nil, List.nil_append] at h1
  refine ⟨?_, ?_, attributedFrom_one _ 0,
    fun hg => attributedFrom_out_of_range _ _ hN hg _ 0⟩
  · rw [hcalls, h1]
    exact h2
  · intro hnp
    rw [hcalls, h1]
    exact h3 (hpanic hnp)

/-- C17, at a concrete input: two groups, group id 1, four written yields and one unwritten:
the second and the fourth written yield are passed to `writePoint`. -/
theorem runSimulator_attribution_witness :
    writePointCalls (runSimulator sampleEnv listSim (groups 1 2) 6
      [some cpuPoint, none, some idlePoint, some cpuPoint, some idleNicePoint]
      ⟨freshGen [], []⟩).st.trace = [idlePoint, idleNicePoint] ∧
    attributedFrom (groups 1 2).InterleavedNumGroups (groups 1 2).InterleavedGroupID 0
      (yields listSim 6
        [some cpuPoint, none, some idlePoint, some cpuPoint, some idleNicePoint]) =
      [idlePoint, idleNicePoint] :=
  have h := (runSimulator_attribution sampleEnv listSim (groups 1 2) 6
    [some cpuPoint, none, some idlePoint, some cpuPoint, some idleNicePoint] (freshGen [])
    (by decide) (by decide)).2.1 rfl
  ⟨h.trans rfl, rfl⟩

/-! ## The batch count -/

/-- The push check of a trace, event by event. -/
theorem pushesCarry_cons (env : Env) (fm : List (String × F64)) (rows k : Nat) (acc : Bytes)
    (e : Event) (t : List Event) :
    pushesCarry env fm rows k acc (e :: t) =
      ((match e with
        | .put plain _ => k = rows ∧ plain = acc
        | _ => True) ∧
      pushesCarry env fm rows (countStep k e) (pendingStep env fm acc e) t) := rfl

/-- The push check of a trace in two parts. -/
theorem pushesCarry_append (env : Env) (fm : List (String × F64)) (rows : Nat)
    (t u : List Event) :
    ∀ (k : Nat) (acc : Bytes), pushesCarry env fm rows k acc (t ++ u) ↔
      pushesCarry env fm rows k acc t ∧
      pushesCarry env fm rows (t.foldl countStep k) (t.foldl (pendingStep env fm) acc) u := by
  induction t with
  | nil => intro k acc; simp [pushesCarry]
  | cons e t ih =>
    intro k acc
    rw [List.cons_append, pushesCarry_cons, pushesCarry_cons, ih, List.foldl_cons,
      List.foldl_cons, and_assoc]

/-- A `writePoint` call that returns keeps the invariant of the batch. -/
theorem Batched.afterCall {env : Env} {fm : List (String × F64)} {s s1 : St}
    (h : Batched env fm s) (p : Point) (hw : writePoint env s p = .ok s1) :
    Batched env fm s1 := by
  obtain ⟨hc, hbs, hle, hpc, hlen⟩ := h
  have hc1 := hc.writePoint p hw
  refine ⟨hc1, ?_⟩
  obtain ⟨hfm, hb, hbuf, _, _⟩ := hc
  cases hd : encodePoint env fm RowBuilder.empty p with
  | error e =>
    rw [writePoint_error env s p e (by rw [hfm, hb]; exact hd)] at hw
    exact absurd hw (by simp)
  | ok data =>
    have henc : encBytes env fm p = data := by simp [encBytes, hd]
    rw [writePoint_ok env s p data (by rw [hfm, hb]; exact hd)] at hw
    by_cases hgt : s.g.batchedSize + 1 > 100
    · rw [if_pos hgt, flushBuffer_pos env _ (by simp [appended])] at hw
      cases hp : (env.put (putCount (appended s p data).trace)
          (env.gzip (appended s p data).g.buf)).err with
      | some e => rw [hp] at hw; simp at hw
      | none =>
        rw [hp] at hw
        injection hw with hw
        subst hw
        have h101 : s.trace.foldl countStep 0 + 1 = 101 := by omega
        refine ⟨?_, ?_, ?_, ?_⟩
        · simp [flushed, appended, List.foldl_append, countStep]
        · simp [flushed]
        · simp only [flushed, appended, pushesCarry_append, hpc, true_and]
          simp only [pushesCarry, countStep, pendingStep, List.foldl_append, List.foldl_cons,
            List.foldl_nil, and_true, true_and]
          exact ⟨h101, by rw [henc, hbuf]; rfl⟩
        · simp [flushed, appended, hlen]
          omega
    · rw [if_neg hgt] at hw
      injection hw with hw
      subst hw
      refine ⟨?_, ?_, ?_, ?_⟩
      · simp [appended, List.foldl_append, countStep, hbs]
      · simp only [appended]; omega
      · simp only [appended, pushesCarry_append, hpc, true_and]
        simp [pushesCarry]
      · simp [appended, hlen]
        omega

/-- A sequence of `writePoint` calls that all return keeps the invariant of the batch and
records the points in order. -/
theorem writePoints_batched (env : Env) (fm : List (String × F64)) :
    ∀ (ps : List Point) (s s1 : St), Batched env fm s → writePoints env s ps = .ok s1 →
      Batched env fm s1 ∧ writePointCalls s1.trace = writePointCalls s.trace ++ ps := by
  intro ps
  induction ps with
  | nil =>
    intro s s1 hb h
    simp only [writePoints, Res.ok.injEq] at h
    subst h
    exact ⟨hb, by simp⟩
  | cons p ps ih =>
    intro s s1 hb h
    unfold writePoints at h
    have hcnt := (writePoint_counts env s p).2
    cases hw : writePoint env s p with
    | panic m s2 => rw [hw] at h; simp at h
    | ok s2 =>
      rw [hw] at h hcnt
      simp only [Res.st] at hcnt
      obtain ⟨hb2, hcalls⟩ := ih s2 s1 (hb.afterCall p hw) h
      exact ⟨hb2, by rw [hcalls, hcnt]; simp⟩

/-- C18: starting from an empty accumulator, after `n` `writePoint` calls that all returned,
`batchedSize` is `n mod 101`, exactly `n / 101` PUT requests have been made, and each of them
came after exactly 101 calls since the one before and carried exactly the rows of those 101
points; so `batchedSize ≤ 100` whenever `writePoint` returns, and the count inside the next
call, after its increment, is at most 101. -/
theorem writePoints_batch_arithmetic (env : Env) (s s1 : St) (ps : List Point)
    (hbs : s.g.batchedSize = 0) (hbuf : s.g.buf = []) (hb : s.g.builder = RowBuilder.empty)
    (htr : s.trace = []) (h : writePoints env s ps = .ok s1) :
    s1.g.batchedSize = ps.length % 101 ∧
    putCount s1.trace = ps.length / 101 ∧
    pushesCarry env s.g.fieldMapping 101 0 [] s1.trace ∧
    s1.g.batchedSize ≤ 100 ∧
    ∀ q data, (appended s1 q data).g.batchedSize ≤ 101 := by
  have h0 : Batched env s.g.fieldMapping s := by
    refine ⟨⟨rfl, hb, ?_, fun _ => hbuf, ?_⟩, ?_, ?_, ?_, ?_⟩
    · rw [hbuf, htr]; rfl
    · rw [hbuf, htr]; rfl
    · rw [hbs, htr]; rfl
    · omega
    · rw [htr]; trivial
    · rw [htr, hbs]; rfl
  obtain ⟨⟨_, _, hle, hpc, hlen⟩, hcalls⟩ := writePoints_batched env _ ps s s1 h0 h
  rw [hcalls, htr] at hlen
  simp only [writePointCalls_nil, List.nil_append] at hlen
  refine ⟨by omega, by omega, hpc, hle, fun q data => ?_⟩
  simp only [appended]
  omega

/-- C18, at a concrete input: 102 calls for the point `cpu` with collaborators that never
fail leave one row in the batch after one PUT. -/
theorem writePoints_batch_arithmetic_witness :
    (writePoints sampleEnv ⟨freshGen [], []⟩ (List.replicate 102 cpuPoint)).st.g.batchedSize =
      (List.replicate 102 cpuPoint).length % 101 ∧
    putCount (writePoints sampleEnv ⟨freshGen [], []⟩ (List.replicate 102 cpuPoint)).st.trace =
      (List.replicate 102 cpuPoint).length / 101 :=
  have h := writePoints_batch_arithmetic sampleEnv ⟨freshGen [], []⟩
    (writePoints sampleEnv ⟨freshGen [], []⟩ (List.replicate 102 cpuPoint)).st
    (List.replicate 102 cpuPoint) rfl rfl rfl rfl rfl
  ⟨h.1, h.2.1⟩

end TsdbTester
